import Mathlib

/-!
Formal model of the Notion proxy service (src/main.py, src/notion_writer.py):
the typed property mapper, the workspace scanner, title extraction, id
validation, and the create/update write paths.  Each definition is a direct
shallow embedding of the named Python function; proofs establish the
behavioural properties of those functions.
-/

set_option maxRecDepth 4096
set_option linter.unnecessarySeqFocus false

namespace NotionProxy

/-- Model of a Python runtime value as it flows through the mapper:
strings, ints, floats (carried by their repr string, since no arithmetic is
ever performed on them), booleans, lists, dicts and None. -/
inductive JVal where
  | str (s : String)
  | intv (n : Int)
  | floatv (r : String)
  | boolv (b : Bool)
  | listv (xs : List JVal)
  | dictv (entries : List (String × JVal))
  | none

/-- The single-quote character, used by Python repr of strings. -/
def sq : String := String.singleton (Char.ofNat 39)

mutual
/-- Python repr() for the modelled values. -/
def pyRepr : JVal → String
  | .str s => sq ++ s ++ sq
  | .intv n => toString n
  | .floatv r => r
  | .boolv b => if b then "True" else "False"
  | .listv xs => "[" ++ String.intercalate ", " (pyReprList xs) ++ "]"
  | .dictv es => "\x7b" ++ String.intercalate ", " (pyReprEntries es) ++ "\x7d"
  | .none => "None"

/-- repr of each element of a list value. -/
def pyReprList : List JVal → List String
  | [] => []
  | x :: xs => pyRepr x :: pyReprList xs

/-- repr of each key/value entry of a dict value. -/
def pyReprEntries : List (String × JVal) → List String
  | [] => []
  | (k, v) :: es => (sq ++ k ++ sq ++ ": " ++ pyRepr v) :: pyReprEntries es
end

/-- Python str() of a value: the string itself for strings, repr otherwise
(which agrees with Python for ints, floats, bools, lists, dicts and None). -/
def pyStr : JVal → String
  | .str s => s
  | v => pyRepr v

/-- Python truthiness of a value (used by the source's bool(value) and
`if value` tests).  A float is falsy exactly when it is zero; since floats
are carried by repr we test the zero spellings the code could see. -/
def pyTruthy : JVal → Bool
  | .str s => s != ""
  | .intv n => n != 0
  | .floatv r => !(r == "0.0" || r == "-0.0" || r == "0")
  | .boolv b => b
  | .listv xs => !xs.isEmpty
  | .dictv es => !es.isEmpty
  | .none => false

/-- Embeds `isinstance(value, (int, float))`.  In Python, bool is a subclass
of int, so boolean values pass this check. -/
def pyIsIntOrFloat : JVal → Bool
  | .intv _ => true
  | .floatv _ => true
  | .boolv _ => true
  | _ => false

/-- True exactly for the Python value None. -/
def isPyNone : JVal → Bool
  | .none => true
  | _ => false

/-- `a or b` on Python strings: `a` when non-empty, else `b`. -/
def pyOrS (a b : String) : String := if a = "" then b else a

/-- First value bound to `key` in an association list (Python dict .get). -/
def assocGet {β : Type} : List (String × β) → String → Option β
  | [], _ => Option.none
  | (k, v) :: rest, key => if k = key then some v else assocGet rest key

/-- Python `str.strip()` on a char list: drop whitespace from both ends. -/
def stripChars (l : List Char) : List Char :=
  (((l.dropWhile Char.isWhitespace).reverse.dropWhile Char.isWhitespace)).reverse

/-- Python `str.strip()`: drop whitespace from both ends of a string. -/
def pyStrip (s : String) : String := String.mk (stripChars s.data)

/-- One property's schema entry, as the mapper reads it: the declared type
(`""` models an absent or empty `type` key, both falsy in the source) and the
raw names of the options list stored under the type key (`""` models an
option dict without a name). -/
structure PropSchema where
  type : String
  options : List String
deriving Repr, DecidableEq

/-- Embeds `_extract_schema_options` (src/notion_writer.py:455,
src/main.py:752): keeps the truthy (non-empty) option names. -/
def extract_schema_options (schema : PropSchema) : List String :=
  schema.options.filter (fun n => n != "")

/-- A mapped Notion property-value payload, shape for shape the JSON the
source builds (e.g. `.titleV c` stands for
`{"title": [{"type": "text", "text": {"content": c}}]}`). -/
inductive NProp where
  | select (name : String)
  | status (name : String)
  | multiSelect (names : List String)
  | titleV (content : String)
  | richText (content : String)
  | checkbox (b : Bool)
  | dateStart (s : String)
  | dateObj (entries : List (String × JVal))
  | number (v : JVal)
  | relation (ids : List String)
  | url (s : String)
  | email (s : String)
  | phone (s : String)

/-- Embeds `re.fullmatch(r"\d\x7b4\x7d-\d\x7b2\x7d-\d\x7b2\x7d", s)`:
exactly the shape `DDDD-DD-DD`.  No calendar validity is checked. -/
def matchesDateShape (s : String) : Bool :=
  match s.data with
  | [a, b, c, d, h1, e, f, h2, g, i] =>
    a.isDigit && b.isDigit && c.isDigit && d.isDigit && h1 == Char.ofNat 45 &&
    e.isDigit && f.isDigit && h2 == Char.ofNat 45 && g.isDigit && i.isDigit
  | _ => false

/-- The relation-building loop of `_map_property_value_strict`: every element
must be a string with non-blank strip, else the whole property fails. -/
def buildRelationItems : List JVal → Option (List String)
  | [] => some []
  | .str rid :: rest =>
    if pyStrip rid = "" then Option.none
    else
      match buildRelationItems rest with
      | some items => some (rid :: items)
      | Option.none => Option.none
  | _ :: _ => Option.none

/-- Embeds `_map_property_value_strict` (src/notion_writer.py:460,
identical body at src/main.py:757 apart from an unused name parameter):
returns `(mapped, error)` where exactly one side is populated. -/
def map_property_value_strict (prop_schema : PropSchema) (value : JVal) :
    Option NProp × Option String :=
  let prop_type := prop_schema.type
  if prop_type = "" then (Option.none, some "missing_type")
  else if prop_type = "rollup" then (Option.none, some "rollup_not_supported")
  else if prop_type = "select" ∨ prop_type = "multi_select" ∨ prop_type = "status" then
    let options := extract_schema_options prop_schema
    if options = [] then (Option.none, some "missing_options")
    else if prop_type = "select" then
      if ¬ pyStr value ∈ options then (Option.none, some "invalid_option")
      else (some (.select (pyStr value)), Option.none)
    else if prop_type = "status" then
      if ¬ pyStr value ∈ options then (Option.none, some "invalid_option")
      else (some (.status (pyStr value)), Option.none)
    else
      match value with
      | .listv items =>
        let names := items.map pyStr
        if ¬ names.filter (fun n => decide (¬ n ∈ options)) = [] then
          (Option.none, some "invalid_option")
        else (some (.multiSelect names), Option.none)
      | _ => (Option.none, some "expected_list")
  else if prop_type = "title" then (some (.titleV (pyStr value)), Option.none)
  else if prop_type = "rich_text" then (some (.richText (pyStr value)), Option.none)
  else if prop_type = "checkbox" then (some (.checkbox (pyTruthy value)), Option.none)
  else if prop_type = "date" then
    let date_value := pyStr value
    if ¬ matchesDateShape date_value then (Option.none, some "invalid_date")
    else (some (.dateStart date_value), Option.none)
  else if prop_type = "number" then
    if ¬ pyIsIntOrFloat value then (Option.none, some "invalid_number")
    else (some (.number value), Option.none)
  else if prop_type = "relation" then
    match value with
    | .listv items =>
      match buildRelationItems items with
      | some relation_items => (some (.relation relation_items), Option.none)
      | Option.none => (Option.none, some "invalid_relation_id")
    | _ => (Option.none, some "expected_list")
  else if prop_type = "url" then (some (.url (pyStr value)), Option.none)
  else if prop_type = "email" then (some (.email (pyStr value)), Option.none)
  else if prop_type = "phone_number" then (some (.phone (pyStr value)), Option.none)
  else (Option.none, some "unsupported_type")

/-- One entry of the strict mapper's errors list: the property name, the
reason string, and (for option errors on enumerated types) the allowed
option names the source attaches. -/
structure ErrorEntry where
  property : String
  reason : String
  options : Option (List String)
deriving Repr, DecidableEq

/-- Embeds `_map_properties_from_schema` (src/notion_writer.py:522,
src/main.py:820).  The schema dict is an association list (a present entry is
always a structure; the source's `if not prop_schema` truthy test folds the
absent and empty-dict cases together, both modelled as an absent key).
Payload and errors are accumulated in input order, as the Python dict and
list do. -/
def map_properties_from_schema (schema_properties : List (String × PropSchema)) :
    List (String × JVal) → List (String × NProp) × List ErrorEntry
  | [] => ([], [])
  | (name, value) :: rest =>
    let acc := map_properties_from_schema schema_properties rest
    match assocGet schema_properties name with
    | Option.none => (acc.1, ⟨name, "unknown_property", Option.none⟩ :: acc.2)
    | some prop_schema =>
      match map_property_value_strict prop_schema value with
      | (_, some error) =>
        let entry : ErrorEntry :=
          if (error = "invalid_option" ∨ error = "missing_options") ∧
              (prop_schema.type = "select" ∨ prop_schema.type = "multi_select" ∨
                prop_schema.type = "status") then
            ⟨name, error, some (extract_schema_options prop_schema)⟩
          else ⟨name, error, Option.none⟩
        (acc.1, entry :: acc.2)
      | (some mapped, Option.none) => ((name, mapped) :: acc.1, acc.2)
      | (Option.none, Option.none) => (acc.1, acc.2)

/-- Embeds the lenient `_map_property_value` (src/main.py:665): `None` for a
rejected value, the mapped payload otherwise.  Note the multi_select branch
silently filters out invalid names and the number branch performs no type
check at all. -/
def map_property_value (prop_type : String) (value : JVal)
    (options : Option (List String)) : Option NProp :=
  if isPyNone value then Option.none
  else if prop_type = "status" then
    match options with
    | some os =>
      if ¬ os.isEmpty ∧ ¬ pyStr value ∈ os then Option.none
      else some (.status (pyStr value))
    | Option.none => some (.status (pyStr value))
  else if prop_type = "select" then
    match options with
    | some os =>
      if ¬ os.isEmpty ∧ ¬ pyStr value ∈ os then Option.none
      else some (.select (pyStr value))
    | Option.none => some (.select (pyStr value))
  else if prop_type = "multi_select" then
    let names :=
      match value with
      | .listv items => items.map pyStr
      | _ => [pyStr value]
    let names :=
      match options with
      | some os => if os.isEmpty then names else names.filter (fun n => decide (n ∈ os))
      | Option.none => names
    if names = [] then Option.none else some (.multiSelect names)
  else if prop_type = "checkbox" then some (.checkbox (pyTruthy value))
  else if prop_type = "date" then
    match value with
    | .dictv entries => some (.dateObj entries)
    | _ =>
      let date_value := pyStr value
      if ¬ matchesDateShape date_value then Option.none
      else some (.dateStart date_value)
  else if prop_type = "number" then some (.number value)
  else if prop_type = "rich_text" then some (.richText (pyStr value))
  else if prop_type = "title" then some (.titleV (pyStr value))
  else if prop_type = "url" then some (.url (pyStr value))
  else if prop_type = "email" then some (.email (pyStr value))
  else if prop_type = "phone_number" then some (.phone (pyStr value))
  else Option.none

/-- Embeds `_build_property_payload` (src/main.py:712): the lenient
create path's mapper.  Returns `(payload, accepted, rejected)`; rejected
properties are only logged by the source, never surfaced as errors. -/
def build_property_payload (schema_properties : List (String × PropSchema)) :
    List (String × JVal) → List (String × NProp) × List String × List String
  | [] => ([], [], [])
  | (name, value) :: rest =>
    let acc := build_property_payload schema_properties rest
    match assocGet schema_properties name with
    | Option.none => (acc.1, acc.2.1, name :: acc.2.2)
    | some schema =>
      if schema.type = "" then (acc.1, acc.2.1, name :: acc.2.2)
      else
        let options : Option (List String) :=
          if schema.type = "select" ∨ schema.type = "multi_select" ∨ schema.type = "status"
          then some (extract_schema_options schema) else Option.none
        match map_property_value schema.type value options with
        | some mapped => ((name, mapped) :: acc.1, name :: acc.2.1, acc.2.2)
        | Option.none => (acc.1, acc.2.1, name :: acc.2.2)

/-- One rich-text fragment as title extraction reads it: only `plain_text`
is consulted. -/
structure RichTextPart where
  plain_text : String
deriving Repr, DecidableEq

/-- One page property as title extraction reads it: the declared type (`""`
models a missing `type` key), the rich-text list under the `title` key, and
the rich-text list under the `rich_text` key.  `extract_title` never reads
the `rich_text` field. -/
structure PropData where
  type : String
  title : List RichTextPart
  rich_text : List RichTextPart
deriving Repr, DecidableEq

/-- Embeds `_extract_plain_text` (src/main.py:318). -/
def extract_plain_text (parts : List RichTextPart) : String :=
  String.join (parts.map (fun p => p.plain_text))

/-- The for-loop of `extract_title`: the first property whose declared type
is `title` and whose text is non-empty. -/
def title_loop : List (String × PropData) → Option String
  | [] => Option.none
  | (_, prop_data) :: rest =>
    if prop_data.type = "title" then
      let title_text := extract_plain_text prop_data.title
      if title_text ≠ "" then some title_text else title_loop rest
    else title_loop rest

/-- Embeds `extract_title` (src/main.py:322): prefer the property literally
named "Name" when title-typed with non-empty text, else the first title-typed
property with non-empty text, else the literal "Untitled". -/
def extract_title (properties : List (String × PropData)) : String :=
  let fromName : Option String :=
    match assocGet properties "Name" with
    | some name_property =>
      if name_property.type = "title" then
        let title_text := extract_plain_text name_property.title
        if title_text ≠ "" then some title_text else Option.none
      else Option.none
    | Option.none => Option.none
  match fromName with
  | some t => t
  | Option.none =>
    match title_loop properties with
    | some t => t
    | Option.none => "Untitled"

/-- A character the id regex `[0-9a-fA-F-]` accepts. -/
def isHexOrHyphen (c : Char) : Bool :=
  c.isDigit || (Char.ofNat 97 ≤ c && c ≤ Char.ofNat 102) ||
    (Char.ofNat 65 ≤ c && c ≤ Char.ofNat 70) || c == Char.ofNat 45

/-- Embeds `re.fullmatch(r"[0-9a-fA-F-]\x7b32,36\x7d", s)`. -/
def matchesIdShape (s : String) : Bool :=
  32 ≤ s.length && s.length ≤ 36 && s.data.all isHexOrHyphen

/-- Embeds `uuid.UUID(candidate.replace("-", ""))` succeeding: once hyphens
are removed from a string of hex digits and hyphens, the UUID constructor
accepts exactly a 32-hex-digit string. -/
def uuidParsesWithoutHyphens (s : String) : Bool :=
  (s.data.filter (fun c => c != Char.ofNat 45)).length == 32

/-- Embeds `_validate_uuid` (src/notion_writer.py:328) and the identical
`_validate_page_id` / `_validate_database_id` (src/main.py:955 / 942):
strip, regex check, UUID round-trip, and return the stripped candidate
unchanged.  The error side carries the HTTP status and detail. -/
def validate_page_id (page_id : String) : Except (Nat × String) String :=
  let candidate := pyStrip page_id
  if candidate = "" then .error (400, "page_id must be provided")
  else if ¬ matchesIdShape candidate then .error (400, "page_id must resemble a UUID")
  else if ¬ uuidParsesWithoutHyphens candidate then
    .error (400, "page_id must resemble a UUID")
  else .ok candidate

/-- The canonical id form the specification describes: hyphenated lowercase
8-4-4-4-12.  Stated from the spec's words, for comparison with what
`validate_page_id` actually returns. -/
def canonicalHyphenatedLowercase (s : String) : Bool :=
  s.length == 36 &&
  (s.data.enum.all (fun ci =>
    if ci.1 = 8 ∨ ci.1 = 13 ∨ ci.1 = 18 ∨ ci.1 = 23 then ci.2 == Char.ofNat 45
    else ci.2.isDigit || (Char.ofNat 97 ≤ ci.2 && ci.2 ≤ Char.ofNat 102)))

/-- One outbound HTTP request, as the write paths issue them. -/
structure NetReq where
  method : String
  url : String
deriving Repr, DecidableEq

/-- A database object as the write paths read it: its schema dict. -/
structure Database where
  properties : List (String × PropSchema)

/-- Embeds `_get_database_title_property` (src/notion_writer.py:448) and
`_get_database_title_property_from_schema` (src/main.py:558): the first
property whose type is `title`; `Option.none` models the raised 500. -/
def get_database_title_property (database : Database) : Option String :=
  (database.properties.find? (fun np => np.2.type == "title")).map (fun np => np.1)

/-- One block item of a `blocks` request parameter, as
`_build_blocks_from_items` reads it. -/
structure BlockItem where
  type : Option String
  text : JVal
  checked : JVal

/-- Embeds the writer's `_build_blocks_from_items`
(src/notion_writer.py:570): each item needs non-blank string text and an
allowed type; raises 400 (the error side) otherwise, or when empty. -/
def build_blocks_from_items (items : List BlockItem) :
    Except (Nat × String) (List (String × String × Option Bool)) :=
  let rec go : List BlockItem → Except (Nat × String) (List (String × String × Option Bool))
    | [] => .ok []
    | item :: rest =>
      let block_type := item.type.getD ""
      match item.text with
      | .str text =>
        if pyStrip text = "" then .error (400, "Block text must be a non-empty string")
        else if ¬ (block_type = "paragraph" ∨ block_type = "heading_1" ∨
            block_type = "heading_2" ∨ block_type = "heading_3" ∨
            block_type = "bulleted_list_item" ∨ block_type = "numbered_list_item" ∨
            block_type = "to_do") then
          .error (400, "Unsupported block type: " ++ block_type)
        else
          let checked : Option Bool :=
            if block_type = "to_do" then some (pyTruthy item.checked) else Option.none
          match go rest with
          | .ok blocks => .ok ((block_type, text, checked) :: blocks)
          | .error e => .error e
      | _ => .error (400, "Block text must be a non-empty string")
  match go items with
  | .ok [] => .error (400, "blocks must include at least one item")
  | .ok blocks => .ok blocks
  | .error e => .error e

/-- Embeds main.py's `_build_blocks_from_items` (src/main.py:903): only
paragraph items with non-blank string text are allowed. -/
def build_blocks_from_items_main (items : List BlockItem) :
    Except (Nat × String) (List String) :=
  let rec go : List BlockItem → Except (Nat × String) (List String)
    | [] => .ok []
    | item :: rest =>
      if item.type.getD "" ≠ "paragraph" then
        .error (400, "Unsupported block type: " ++ item.type.getD "")
      else
        match item.text with
        | .str text =>
          if pyStrip text = "" then
            .error (400, "Paragraph text must be a non-empty string")
          else
            match go rest with
            | .ok blocks => .ok (text :: blocks)
            | .error e => .error e
        | _ => .error (400, "Paragraph text must be a non-empty string")
  match go items with
  | .ok [] => .error (400, "content_append must include at least one block")
  | .ok blocks => .ok blocks
  | .error e => .error e

/-- Outcome of `NotionWriter.create_page_in_database`: either the POST was
issued (`created`), or a `NotionAPIError` was raised first; the
invalid-properties rejection carries the mapper's errors list. -/
inductive WriterResult where
  | created
  | raised (status : Nat) (detail : String) (errors : List ErrorEntry)
deriving Repr

/-- Embeds `NotionWriter.create_page_in_database` (src/notion_writer.py:102)
from the point where the id has been validated.  The fetched database is the
oracle for the initial GET; the returned list is the full request trace in
issue order.  The POST only happens at the very end. -/
def writer_create_page_in_database (validated_id : String) (database : Database)
    (properties : Option (List (String × JVal))) (_content : Option String)
    (blocks : Option (List BlockItem)) : WriterResult × List NetReq :=
  let getReq : NetReq := ⟨"GET", "https://api.notion.com/v1/databases/" ++ validated_id⟩
  match get_database_title_property database with
  | Option.none => (.raised 500 "Database has no title property" [], [getReq])
  | some _title_property =>
    let mappingStep : Except (List ErrorEntry) Unit :=
      match properties with
      | some props =>
        if props.isEmpty then .ok ()
        else
          let me := map_properties_from_schema database.properties props
          if me.2 = [] then .ok () else .error me.2
      | Option.none => .ok ()
    match mappingStep with
    | .error errors => (.raised 400 "Invalid properties payload" errors, [getReq])
    | .ok _ =>
      let childrenStep : Except (Nat × String) Unit :=
        match blocks with
        | some items =>
          if items.isEmpty then .ok ()
          else
            match build_blocks_from_items items with
            | .ok _ => .ok ()
            | .error e => .error e
        | Option.none => .ok ()
      match childrenStep with
      | .error e => (.raised e.1 e.2 [], [getReq])
      | .ok _ =>
        (.created, [getReq, ⟨"POST", "https://api.notion.com/v1/pages"⟩])

/-- Outcome of the `/command` handler: the source's
`_format_success_response` / `_format_error_response` shapes, plus a raised
`HTTPException`. -/
inductive CmdResult where
  | ok (page_id page_url : String)
  | fail (reason : String) (errors : List ErrorEntry)
  | raised (status : Nat) (detail : String)
deriving Repr

/-- Embeds the `page.create` database branch of the `/command` handler
(src/main.py:1547-1575), from the point where the title is non-empty and the
database id validated.  The fetched database is the GET's oracle and
`postResult` the POST's; the trace lists requests in issue order. -/
def command_page_create_db (validated_id : String) (database : Database)
    (propertiesParam : Option (List (String × JVal)))
    (blocksParam : Option (List BlockItem)) (postResult : String × String) :
    CmdResult × List NetReq :=
  let getReq : NetReq := ⟨"GET", "https://api.notion.com/v1/databases/" ++ validated_id⟩
  let properties := propertiesParam.getD []
  let me := map_properties_from_schema database.properties properties
  if me.2 ≠ [] then (.fail "Invalid properties payload" me.2, [getReq])
  else
    match get_database_title_property database with
    | Option.none => (.raised 500 "Database has no title property", [getReq])
    | some _title_property =>
      let blocksStep : Except (Nat × String) Unit :=
        match blocksParam with
        | some items =>
          if items.isEmpty then .ok ()
          else
            match build_blocks_from_items_main items with
            | .ok _ => .ok ()
            | .error e => .error e
        | Option.none => .ok ()
      match blocksStep with
      | .error e => (.raised e.1 e.2, [getReq])
      | .ok _ =>
        (.ok postResult.1 postResult.2,
          [getReq, ⟨"POST", "https://api.notion.com/v1/pages"⟩])

/-- Outcome of the lenient `_create_page_in_database`: the POST is issued
with the built payload unless the schema has no title property.  The
accepted and rejected name lists are only logged by the source. -/
inductive LenientCreateResult where
  | posted (payloadProps : List (String × NProp)) (accepted rejected : List String)
  | raised (status : Nat) (detail : String)

/-- Replace the first binding of `k`, else append (Python dict assignment
on an insertion-ordered dict). -/
def assocUpdate {β : Type} : List (String × β) → String → β → List (String × β)
  | [], k, v => [(k, v)]
  | (k0, v0) :: rest, k, v =>
    if k0 = k then (k0, v) :: rest else (k0, v0) :: assocUpdate rest k v

/-- Python `dict.update`: apply each binding of `upd` in order. -/
def assocUpdateAll {β : Type} (base upd : List (String × β)) : List (String × β) :=
  upd.foldl (fun acc kv => assocUpdate acc kv.1 kv.2) base

/-- Embeds the lenient `_create_page_in_database` (src/main.py:845): fetch
the schema, build the title payload, merge the leniently mapped properties
(dropping rejected ones), and always POST.  Content only adds child
paragraph blocks and cannot fail. -/
def create_page_in_database_lenient (database_id : String) (database : Database)
    (title : String) (properties : Option (List (String × JVal))) :
    LenientCreateResult × List NetReq :=
  let getReq : NetReq := ⟨"GET", "https://api.notion.com/v1/databases/" ++ database_id⟩
  match get_database_title_property database with
  | Option.none => (.raised 500 "Database has no title property", [getReq])
  | some title_property =>
    let base : List (String × NProp) := [(title_property, .titleV title)]
    let step :=
      match properties with
      | some props =>
        if props.isEmpty then (base, ([] : List String), ([] : List String))
        else
          let mar := build_property_payload database.properties props
          (assocUpdateAll base mar.1, mar.2.1, mar.2.2)
      | Option.none => (base, [], [])
    (.posted step.1 step.2.1 step.2.2,
      [getReq, ⟨"POST", "https://api.notion.com/v1/pages"⟩])

/-- The raw `parent` dict of a block or page: its `type` key and the id
stored under the key named by that type; `""` models a missing key (falsy in
the source). -/
structure ParentRef where
  ptype : String
  pid : String
deriving Repr, DecidableEq

/-- Embeds `_build_parent_info` (src/main.py:417). -/
def build_parent_info (parent : ParentRef) : Option (String × String) :=
  if parent.ptype = "" then Option.none
  else if parent.pid = "" then Option.none
  else some (parent.ptype, parent.pid)

/-- One block as `_paginate_block_children` returns it, with the fields the
scanner reads: type, id, parent, the titles under `child_database` /
`child_page` (`""` models a missing title, falsy in the source), and the
`has_children` flag. -/
structure Block where
  type : String
  id : String
  parent : ParentRef
  childDatabaseTitle : String
  childPageTitle : String
  hasChildren : Bool
deriving Repr, DecidableEq

/-- One row returned by a database query, with the fields the scanner
reads. -/
structure Row where
  id : String
  parent : ParentRef
  properties : List (String × PropData)
deriving Repr, DecidableEq

/-- A database catalog entry as `_scan_workspace` builds it. -/
structure DbEntry where
  id : String
  title : String
  parent : Option (String × String)
deriving Repr, DecidableEq

/-- A page catalog entry as `_scan_workspace` builds it. -/
structure PageEntry where
  id : String
  title : String
  parent : Option (String × String)
deriving Repr, DecidableEq

/-- The upstream workspace as the scanner's two read endpoints see it:
`children id` is what `_paginate_block_children id` returns, and
`dbPages id` is what `_paginate_database_pages id` returns — `.error s`
models an `HTTPException` with status `s`. -/
structure Workspace where
  children : String → List Block
  dbPages : String → Except Nat (List Row)

/-- The scanner's mutable state: the two catalogs (insertion-ordered maps),
the two work queues, the two visited sets, and the trace of ids whose
children have been fetched. -/
structure ScanState where
  databases : List (String × DbEntry)
  pages : List (String × PageEntry)
  blockQueue : List String
  seenBlocks : List String
  dbQueue : List String
  seenDbs : List String
  fetched : List String
deriving Repr, DecidableEq

/-- Python `list.pop()`: remove and return the LAST element. -/
def popLast {α : Type} : List α → Option (α × List α)
  | [] => Option.none
  | [x] => some (x, [])
  | x :: xs =>
    match popLast xs with
    | some (y, rest) => some (y, x :: rest)
    | Option.none => Option.none

/-- Python `dict.setdefault`: append the binding only when the key is
absent. -/
def assocSetdefault {β : Type} (l : List (String × β)) (k : String) (v : β) :
    List (String × β) :=
  if k ∈ l.map Prod.fst then l else l ++ [(k, v)]

/-- The `child_database` branch of the scanner's child loop
(src/main.py:468-480): register or refresh the database entry and enqueue
the database when not yet processed. -/
def pcb_db (st : ScanState) (block : Block) : ScanState :=
  if block.type = "child_database" then
    if block.id ≠ "" then
      let parent_info := build_parent_info block.parent
      let title := pyOrS block.childDatabaseTitle "Untitled"
      let existingTitle := ((assocGet st.databases block.id).map DbEntry.title).getD ""
      let existingParent :=
        ((assocGet st.databases block.id).map DbEntry.parent).getD Option.none
      let entry : DbEntry :=
        ⟨block.id, pyOrS title (pyOrS existingTitle "Untitled"),
          if parent_info.isSome then parent_info else existingParent⟩
      let st1 := { st with databases := assocUpdate st.databases block.id entry }
      if block.id ∉ st1.seenDbs then { st1 with dbQueue := st1.dbQueue ++ [block.id] }
      else st1
    else st
  else st

/-- The `child_page` branch of the scanner's child loop
(src/main.py:481-493): register the page (first write wins) and queue it
for descent. -/
def pcb_page (st : ScanState) (block : Block) : ScanState :=
  if block.type = "child_page" then
    if block.id ≠ "" then
      let parent_info := build_parent_info block.parent
      let entry : PageEntry := ⟨block.id, pyOrS block.childPageTitle "Untitled", parent_info⟩
      { st with pages := assocSetdefault st.pages block.id entry,
                blockQueue := st.blockQueue ++ [block.id] }
    else st
  else st

/-- The `has_children` branch of the scanner's child loop
(src/main.py:494-497): queue the block itself for descent. -/
def pcb_children (st : ScanState) (block : Block) : ScanState :=
  if block.hasChildren ∧ block.id ≠ "" then
    { st with blockQueue := st.blockQueue ++ [block.id] }
  else st

/-- The body of the scanner's `for block in _paginate_block_children(...)`
loop (src/main.py:466-497): the three `if` blocks run in sequence on the
mutated state, exactly as in the source. -/
def process_child_block (st : ScanState) (block : Block) : ScanState :=
  pcb_children (pcb_page (pcb_db st block) block) block

/-- The body of the scanner's `for page in database_pages` loop
(src/main.py:511-524): register each row as a page and queue it for
descent. -/
def process_row (st : ScanState) (page : Row) : ScanState :=
  if page.id = "" then st
  else
    let parent_info := build_parent_info page.parent
    let entry : PageEntry := ⟨page.id, extract_title page.properties, parent_info⟩
    { st with pages := assocSetdefault st.pages page.id entry,
              blockQueue := st.blockQueue ++ [page.id] }

/-- One iteration of `_scan_workspace`'s loop (src/main.py:460-524).  The
source drains the block queue in an inner `while` before popping one
database; preferring a non-empty block queue step by step executes the very
same sequence of operations.  `.error s` models the re-raised
`HTTPException` for a database query failure outside 403/404. -/
def scanStep (ws : Workspace) (st : ScanState) : Except Nat ScanState :=
  match popLast st.blockQueue with
  | some (block_id, rest) =>
    if block_id = "" ∨ block_id ∈ st.seenBlocks then .ok { st with blockQueue := rest }
    else
      let st1 := { st with blockQueue := rest,
                           seenBlocks := block_id :: st.seenBlocks,
                           fetched := st.fetched ++ [block_id] }
      .ok ((ws.children block_id).foldl process_child_block st1)
  | Option.none =>
    match popLast st.dbQueue with
    | some (database_id, rest) =>
      if database_id ∈ st.seenDbs then .ok { st with dbQueue := rest }
      else
        let st1 := { st with dbQueue := rest, seenDbs := database_id :: st.seenDbs }
        match ws.dbPages database_id with
        | .error status =>
          if status = 403 ∨ status = 404 then .ok st1 else .error status
        | .ok database_pages => .ok (database_pages.foldl process_row st1)
    | Option.none => .ok st

/-- The scanner's driving loop, with explicit fuel: `Option.none` means the
fuel ran out before both queues emptied — the termination theorem shows a
computable amount of fuel always suffices. -/
def scanLoop (ws : Workspace) : Nat → ScanState → Option (Except Nat ScanState)
  | 0, _ => Option.none
  | Nat.succ fuel, st =>
    if st.blockQueue.isEmpty ∧ st.dbQueue.isEmpty then some (.ok st)
    else
      match scanStep ws st with
      | .error status => some (.error status)
      | .ok st1 => scanLoop ws fuel st1

/-- The scanner's initial state for a root id (src/main.py:453-458). -/
def initState (root_page_id : String) : ScanState :=
  ⟨[], [], [root_page_id], [], [], [], []⟩

/-- Embeds `_scan_workspace(root_page_id)` (src/main.py:452): run the loop
from the initial state.  On completion the catalogs are the final state's
`databases` and `pages` fields. -/
def scan_workspace (ws : Workspace) (fuel : Nat) (root_page_id : String) :
    Option (Except Nat ScanState) :=
  scanLoop ws fuel (initState root_page_id)

/-- The rows a database query contributes (none when the query fails). -/
def rowsOf (ws : Workspace) (id : String) : List Row :=
  match ws.dbPages id with
  | .ok rows => rows
  | .error _ => []

/-- How many rows a database query would contribute (zero when the query
fails). -/
def rowCount (ws : Workspace) (id : String) : Nat :=
  (rowsOf ws id).length

/-- Termination measure for the scan: pending work in the not-yet-visited
part of the universe plus the queue lengths. -/
def scanMeasure (ws : Workspace) (U : List String) (st : ScanState) : Nat :=
  3 * ((U.filter (fun id => decide (id ∉ st.seenBlocks))).map
        (fun id => (ws.children id).length)).sum
  + ((U.filter (fun id => decide (id ∉ st.seenDbs))).map (fun id => rowCount ws id)).sum
  + st.blockQueue.length + st.dbQueue.length

/-- The reachability graph is finite: a universe `U` of ids containing the
root and closed under both child listing and row querying (the empty id is
never enqueued, so it may stay outside `U`). -/
def ClosedGraph (ws : Workspace) (U : List String) (root : String) : Prop :=
  root ∈ U ∧
  (∀ id ∈ U, ∀ b ∈ ws.children id, b.id = "" ∨ b.id ∈ U) ∧
  (∀ id ∈ U, ∀ r ∈ rowsOf ws id, r.id = "" ∨ r.id ∈ U)

/-- Every page in the catalog was put there either as a `child_page` block of
a visited block or as a row of a successfully queried database. -/
def PageOrigin (ws : Workspace) (seenB seenD : List String) (p : String) : Prop :=
  (∃ id ∈ seenB, ∃ b ∈ ws.children id, b.type = "child_page" ∧ b.id = p) ∨
  (∃ d ∈ seenD, ∃ rows, ws.dbPages d = .ok rows ∧ ∃ r ∈ rows, r.id = p)

/-- The loop invariant of the scan. -/
structure ScanInv (ws : Workspace) (U : List String) (st : ScanState) : Prop where
  bq_sub : ∀ x ∈ st.blockQueue, x ∈ U
  dq_sub : ∀ x ∈ st.dbQueue, x ∈ U
  seenB_nodup : st.seenBlocks.Nodup
  fetch_eq : st.fetched = st.seenBlocks.reverse
  pages_nodup : (st.pages.map Prod.fst).Nodup
  dbs_nodup : (st.databases.map Prod.fst).Nodup
  db_disc : ∀ id ∈ st.seenBlocks, ∀ b ∈ ws.children id,
    b.type = "child_database" → b.id = "" ∨ b.id ∈ st.databases.map Prod.fst
  pages_origin : ∀ p ∈ st.pages.map Prod.fst, PageOrigin ws st.seenBlocks st.seenDbs p

/-! ### Support lemmas -/

lemma head?_dropWhile_not {α : Type} (p : α → Bool) (l : List α) (a : α)
    (h : (l.dropWhile p).head? = some a) : p a = false := by
  induction l with
  | nil => simp [List.dropWhile] at h
  | cons x xs ih =>
    rw [List.dropWhile_cons] at h
    by_cases hp : p x
    · simp only [hp, if_true] at h
      exact ih h
    · simp only [hp, if_false] at h
      simp only [List.head?] at h
      cases h
      simpa using hp

lemma dropWhile_eq_self_of_head? {α : Type} (p : α → Bool) (l : List α)
    (h : ∀ a, l.head? = some a → p a = false) : l.dropWhile p = l := by
  cases l with
  | nil => rfl
  | cons x xs =>
    rw [List.dropWhile_cons, h x rfl]
    simp

lemma head?_of_front {α : Type} {l₁ l₂ : List α} (h : l₁ <+: l₂) (a : α)
    (ha : l₁.head? = some a) : l₂.head? = some a := by
  obtain ⟨t, rfl⟩ := h
  cases l₁ with
  | nil => simp at ha
  | cons x xs => simpa using ha

lemma stripChars_eq_rdropWhile (l : List Char) :
    stripChars l =
      List.rdropWhile Char.isWhitespace (List.dropWhile Char.isWhitespace l) := by
  simp [stripChars, List.rdropWhile]

lemma stripChars_idem (l : List Char) : stripChars (stripChars l) = stripChars l := by
  rw [stripChars_eq_rdropWhile, stripChars_eq_rdropWhile]
  have hfix : (List.rdropWhile Char.isWhitespace
      (List.dropWhile Char.isWhitespace l)).dropWhile Char.isWhitespace
      = List.rdropWhile Char.isWhitespace (List.dropWhile Char.isWhitespace l) := by
    apply dropWhile_eq_self_of_head?
    intro a ha
    have hpre := List.rdropWhile_prefix Char.isWhitespace
      (List.dropWhile Char.isWhitespace l)
    exact head?_dropWhile_not Char.isWhitespace l a (head?_of_front hpre a ha)
  rw [hfix, List.rdropWhile_idempotent]

lemma pyStrip_idem (s : String) : pyStrip (pyStrip s) = pyStrip s := by
  unfold pyStrip
  rw [show (String.mk (stripChars s.data)).data = stripChars s.data from rfl,
    stripChars_idem]

/-- The strict mapper always returns exactly one of a mapped value or an
error reason: no input is silently dropped. -/
lemma mpvs_cases (ps : PropSchema) (v : JVal) :
    (∃ m, map_property_value_strict ps v = (some m, Option.none)) ∨
    (∃ e, map_property_value_strict ps v = (Option.none, some e)) := by
  by_cases h0 : ps.type = ""
  · exact Or.inr ⟨_, by simp [map_property_value_strict, h0] <;> rfl⟩
  by_cases h1 : ps.type = "rollup"
  · exact Or.inr ⟨_, by simp [map_property_value_strict, h0, h1] <;> rfl⟩
  by_cases h2 : ps.type = "select"
  · by_cases ho : extract_schema_options ps = []
    · exact Or.inr ⟨_, by simp [map_property_value_strict, h0, h1, h2, ho] <;> rfl⟩
    by_cases hm : pyStr v ∈ extract_schema_options ps
    · exact Or.inl ⟨_, by simp [map_property_value_strict, h0, h1, h2, ho, hm] <;> rfl⟩
    · exact Or.inr ⟨_, by simp [map_property_value_strict, h0, h1, h2, ho, hm] <;> rfl⟩
  by_cases h3 : ps.type = "status"
  · by_cases ho : extract_schema_options ps = []
    · exact Or.inr ⟨_, by simp [map_property_value_strict, h0, h1, h2, h3, ho] <;> rfl⟩
    by_cases hm : pyStr v ∈ extract_schema_options ps
    · exact Or.inl ⟨_, by simp [map_property_value_strict, h0, h1, h2, h3, ho, hm] <;> rfl⟩
    · exact Or.inr ⟨_, by simp [map_property_value_strict, h0, h1, h2, h3, ho, hm] <;> rfl⟩
  by_cases h4 : ps.type = "multi_select"
  · by_cases ho : extract_schema_options ps = []
    · exact Or.inr ⟨_, by simp [map_property_value_strict, h0, h1, h2, h3, h4, ho] <;> rfl⟩
    cases v with
    | listv items =>
      have hred : map_property_value_strict ps (.listv items) =
          if ¬ (items.map pyStr).filter
              (fun n => decide (¬ n ∈ extract_schema_options ps)) = [] then
            (Option.none, some "invalid_option")
          else (some (.multiSelect (items.map pyStr)), Option.none) := by
        unfold map_property_value_strict
        dsimp only
        rw [if_neg h0, if_neg h1, if_pos (Or.inr (Or.inl h4)), if_neg ho,
          if_neg h2, if_neg h3]
      by_cases hf : (items.map pyStr).filter
          (fun n => decide (¬ n ∈ extract_schema_options ps)) = []
      · exact Or.inl ⟨_, by rw [hred, if_neg (by simpa using hf)]⟩
      · exact Or.inr ⟨_, by rw [hred, if_pos (by simpa using hf)]⟩
    | str s => exact Or.inr ⟨_, by simp [map_property_value_strict, h0, h1, h2, h3, h4, ho] <;> rfl⟩
    | intv n => exact Or.inr ⟨_, by simp [map_property_value_strict, h0, h1, h2, h3, h4, ho] <;> rfl⟩
    | floatv r => exact Or.inr ⟨_, by simp [map_property_value_strict, h0, h1, h2, h3, h4, ho] <;> rfl⟩
    | boolv b => exact Or.inr ⟨_, by simp [map_property_value_strict, h0, h1, h2, h3, h4, ho] <;> rfl⟩
    | dictv es => exact Or.inr ⟨_, by simp [map_property_value_strict, h0, h1, h2, h3, h4, ho] <;> rfl⟩
    | none => exact Or.inr ⟨_, by simp [map_property_value_strict, h0, h1, h2, h3, h4, ho] <;> rfl⟩
  by_cases h5 : ps.type = "title"
  · exact Or.inl ⟨_, by simp [map_property_value_strict, h0, h1, h2, h3, h4, h5] <;> rfl⟩
  by_cases h6 : ps.type = "rich_text"
  · exact Or.inl ⟨_, by simp [map_property_value_strict, h0, h1, h2, h3, h4, h5, h6] <;> rfl⟩
  by_cases h7 : ps.type = "checkbox"
  · exact Or.inl ⟨_, by simp [map_property_value_strict, h0, h1, h2, h3, h4, h5, h6, h7] <;> rfl⟩
  by_cases h8 : ps.type = "date"
  · by_cases hd : matchesDateShape (pyStr v)
    · exact Or.inl ⟨_, by simp [map_property_value_strict, h0, h1, h2, h3, h4, h5, h6, h7, h8, hd] <;> rfl⟩
    · exact Or.inr ⟨_, by simp [map_property_value_strict, h0, h1, h2, h3, h4, h5, h6, h7, h8, hd] <;> rfl⟩
  by_cases h9 : ps.type = "number"
  · by_cases hn : pyIsIntOrFloat v
    · exact Or.inl ⟨_, by simp [map_property_value_strict, h0, h1, h2, h3, h4, h5, h6, h7, h8, h9, hn] <;> rfl⟩
    · exact Or.inr ⟨_, by simp [map_property_value_strict, h0, h1, h2, h3, h4, h5, h6, h7, h8, h9, hn] <;> rfl⟩
  by_cases h10 : ps.type = "relation"
  · cases v with
    | listv items =>
      cases hbr : buildRelationItems items with
      | some l =>
        exact Or.inl ⟨_, by
          simp [map_property_value_strict, h0, h1, h2, h3, h4, h5, h6, h7, h8, h9, h10, hbr] <;> rfl⟩
      | none =>
        exact Or.inr ⟨_, by
          simp [map_property_value_strict, h0, h1, h2, h3, h4, h5, h6, h7, h8, h9, h10, hbr] <;> rfl⟩
    | str s =>
      exact Or.inr ⟨_, by simp [map_property_value_strict, h0, h1, h2, h3, h4, h5, h6, h7, h8, h9, h10] <;> rfl⟩
    | intv n =>
      exact Or.inr ⟨_, by simp [map_property_value_strict, h0, h1, h2, h3, h4, h5, h6, h7, h8, h9, h10] <;> rfl⟩
    | floatv r =>
      exact Or.inr ⟨_, by simp [map_property_value_strict, h0, h1, h2, h3, h4, h5, h6, h7, h8, h9, h10] <;> rfl⟩
    | boolv b =>
      exact Or.inr ⟨_, by simp [map_property_value_strict, h0, h1, h2, h3, h4, h5, h6, h7, h8, h9, h10] <;> rfl⟩
    | dictv es =>
      exact Or.inr ⟨_, by simp [map_property_value_strict, h0, h1, h2, h3, h4, h5, h6, h7, h8, h9, h10] <;> rfl⟩
    | none =>
      exact Or.inr ⟨_, by simp [map_property_value_strict, h0, h1, h2, h3, h4, h5, h6, h7, h8, h9, h10] <;> rfl⟩
  by_cases h11 : ps.type = "url"
  · exact Or.inl ⟨_, by
      simp [map_property_value_strict, h0, h1, h2, h3, h4, h5, h6, h7, h8, h9, h10, h11] <;> rfl⟩
  by_cases h12 : ps.type = "email"
  · exact Or.inl ⟨_, by
      simp [map_property_value_strict, h0, h1, h2, h3, h4, h5, h6, h7, h8, h9, h10, h11, h12] <;> rfl⟩
  by_cases h13 : ps.type = "phone_number"
  · exact Or.inl ⟨_, by
      simp [map_property_value_strict, h0, h1, h2, h3, h4, h5, h6, h7, h8, h9, h10, h11, h12, h13] <;> rfl⟩
  · exact Or.inr ⟨_, by
      simp [map_property_value_strict, h0, h1, h2, h3, h4, h5, h6, h7, h8, h9, h10, h11, h12, h13] <;> rfl⟩

/-- Each input key contributes its occurrence count to the payload keys plus
the error properties: nothing is lost, nothing is invented. -/
lemma mpfs_count (sp : List (String × PropSchema)) (input : List (String × JVal))
    (name : String) :
    ((map_properties_from_schema sp input).1.map Prod.fst).count name
      + ((map_properties_from_schema sp input).2.map ErrorEntry.property).count name
    = (input.map Prod.fst).count name := by
  induction input with
  | nil => simp [map_properties_from_schema]
  | cons kv rest ih =>
    obtain ⟨k, v⟩ := kv
    cases hs : assocGet sp k with
    | none =>
      simp only [map_properties_from_schema, hs, List.map_cons, List.count_cons]
      by_cases hk : name = k
      · subst hk; simp only [beq_self_eq_true, if_true]; omega
      · simp only [beq_iff_eq, hk, if_false]; omega
    | some ps =>
      rcases mpvs_cases ps v with ⟨m, hm⟩ | ⟨e, he⟩
      · simp only [map_properties_from_schema, hs, hm, List.map_cons, List.count_cons]
        by_cases hk : name = k
        · subst hk; simp only [beq_self_eq_true, if_true]; omega
        · simp only [beq_iff_eq, hk, if_false]; omega
      · simp only [map_properties_from_schema, hs, he, List.map_cons, List.count_cons]
        have hprop : (if (e = "invalid_option" ∨ e = "missing_options") ∧
            (ps.type = "select" ∨ ps.type = "multi_select" ∨ ps.type = "status") then
              (⟨k, e, some (extract_schema_options ps)⟩ : ErrorEntry)
            else ⟨k, e, Option.none⟩).property = k := by
          split <;> rfl
        simp only [hprop]
        by_cases hk : name = k
        · subst hk; simp only [beq_self_eq_true, if_true]; omega
        · simp only [beq_iff_eq, hk, if_false]; omega

/-- A date-shaped string starts with a digit. -/
lemma matchesDateShape_head (s : String) (c : Char) (cs : List Char)
    (hdata : s.data = c :: cs) (hc : c.isDigit = false) : matchesDateShape s = false := by
  unfold matchesDateShape
  rw [hdata]
  rcases cs with _ | ⟨a1, _ | ⟨a2, _ | ⟨a3, _ | ⟨a4, _ | ⟨a5, _ | ⟨a6, _ | ⟨a7, _ |
    ⟨a8, _ | ⟨a9, rest⟩⟩⟩⟩⟩⟩⟩⟩⟩ <;>
    first
      | rfl
      | (rcases rest with _ | ⟨r, rs⟩ <;> simp [hc])

/-- Python str() of a dict never matches the date shape: it starts with a
brace, not a digit. -/
lemma matchesDateShape_dictv (entries : List (String × JVal)) :
    matchesDateShape (pyStr (.dictv entries)) = false := by
  have hdata : (pyStr (JVal.dictv entries)).data =
      Char.ofNat 123 ::
        ((String.intercalate ", " (pyReprEntries entries)).data ++ ("\x7d" : String).data) := by
    show (pyRepr (JVal.dictv entries)).data = _
    rw [pyRepr]
    rw [String.data_append, String.data_append]
    rfl
  exact matchesDateShape_head _ _ _ hdata (by decide)

/-- Keys of the strict mapper's payload only come from keys present in the
schema. -/
lemma mpfs_payload_key_in_schema (sp : List (String × PropSchema))
    (input : List (String × JVal)) (k : String)
    (hk : k ∈ (map_properties_from_schema sp input).1.map Prod.fst) :
    assocGet sp k ≠ Option.none := by
  induction input with
  | nil => simp [map_properties_from_schema] at hk
  | cons kv rest ih =>
    obtain ⟨k0, v0⟩ := kv
    cases hs : assocGet sp k0 with
    | none =>
      simp only [map_properties_from_schema, hs] at hk
      exact ih hk
    | some ps =>
      rcases mpvs_cases ps v0 with ⟨m, hm⟩ | ⟨e, he⟩
      · simp only [map_properties_from_schema, hs, hm, List.map_cons, List.mem_cons] at hk
        rcases hk with rfl | hk
        · rw [hs]; simp
        · exact ih hk
      · simp only [map_properties_from_schema, hs, he] at hk
        exact ih hk

/-- Every input key missing from the schema produces an `unknown_property`
error entry. -/
lemma mpfs_unknown_mem (sp : List (String × PropSchema))
    (input : List (String × JVal)) (k : String)
    (hs : assocGet sp k = Option.none) (hk : k ∈ input.map Prod.fst) :
    (⟨k, "unknown_property", Option.none⟩ : ErrorEntry)
      ∈ (map_properties_from_schema sp input).2 := by
  induction input with
  | nil => simp at hk
  | cons kv rest ih =>
    obtain ⟨k0, v0⟩ := kv
    simp only [List.map_cons, List.mem_cons] at hk
    rcases hk with rfl | hk
    · simp only [map_properties_from_schema, hs]
      exact List.mem_cons_self _ _
    · cases hs0 : assocGet sp k0 with
      | none =>
        simp only [map_properties_from_schema, hs0]
        exact List.mem_cons_of_mem _ (ih hk)
      | some ps =>
        rcases mpvs_cases ps v0 with ⟨m, hm⟩ | ⟨e, he⟩
        · simp only [map_properties_from_schema, hs0, hm]
          exact ih hk
        · simp only [map_properties_from_schema, hs0, he]
          exact List.mem_cons_of_mem _ (ih hk)

/-! ### Claim theorems -/

/-- C2: for every schema map and every input map (with the distinct keys a
Python dict guarantees), the property mapper totally returns a
`(mapped, errors)` pair — it is a total function, never raising — and every
key of the input appears in exactly one of the two sides: counted over the
payload keys and the error `property` fields together, each input key occurs
exactly once, so no input key is silently dropped from both. -/
theorem mapper_accounts_for_every_key (schema_properties : List (String × PropSchema))
    (input : List (String × JVal)) (hnodup : (input.map Prod.fst).Nodup)
    (name : String) (hmem : name ∈ input.map Prod.fst) :
    ((map_properties_from_schema schema_properties input).1.map Prod.fst).count name
      + ((map_properties_from_schema schema_properties input).2.map
          ErrorEntry.property).count name = 1 := by
  rw [mpfs_count]
  exact List.count_eq_one_of_mem hnodup hmem

/-- Witness for C2 at a concrete schema and input. -/
theorem mapper_accounts_for_every_key_witness :
    (([("A", JVal.str "x"), ("B", JVal.str "y")].map Prod.fst).Nodup ∧
      "B" ∈ [("A", JVal.str "x"), ("B", JVal.str "y")].map Prod.fst) ∧
    ((map_properties_from_schema [("A", ⟨"title", []⟩)]
        [("A", JVal.str "x"), ("B", JVal.str "y")]).1.map Prod.fst).count "B"
      + ((map_properties_from_schema [("A", ⟨"title", []⟩)]
          [("A", JVal.str "x"), ("B", JVal.str "y")]).2.map
            ErrorEntry.property).count "B" = 1 :=
  ⟨⟨by decide, by decide⟩,
    mapper_accounts_for_every_key [("A", ⟨"title", []⟩)]
      [("A", JVal.str "x"), ("B", JVal.str "y")] (by decide) "B" (by decide)⟩

/-- C3: for a multi_select property with a non-empty allowed-option set, any
list input containing an element whose string form is not allowed is
rejected whole with reason `invalid_option` — no mapped value, no partial
acceptance; concretely, `["opt1", "bogus"]` against options `[opt1, opt2]`
produces no mapped entry at all, not a partial `["opt1"]`. -/
theorem multi_select_all_or_nothing (ps : PropSchema) (hty : ps.type = "multi_select")
    (hopts : extract_schema_options ps ≠ []) (items : List JVal) (x : JVal)
    (hx : x ∈ items) (hbad : pyStr x ∉ extract_schema_options ps) :
    map_property_value_strict ps (.listv items) = (Option.none, some "invalid_option") ∧
    map_property_value_strict ⟨"multi_select", ["opt1", "opt2"]⟩
        (.listv [.str "opt1", .str "bogus"])
      = (Option.none, some "invalid_option") ∧
    map_properties_from_schema [("B", ⟨"multi_select", ["opt1", "opt2"]⟩)]
        [("B", .listv [.str "opt1", .str "bogus"])]
      = ([], [⟨"B", "invalid_option", some ["opt1", "opt2"]⟩]) := by
  refine ⟨?_, rfl, rfl⟩
  have hfil : ¬ (List.map pyStr items).filter
      (fun n => decide (¬ n ∈ extract_schema_options ps)) = [] := by
    intro hemp
    have hmem : pyStr x ∈ (List.map pyStr items).filter
        (fun n => decide (¬ n ∈ extract_schema_options ps)) := by
      simp only [List.mem_filter, List.mem_map]
      exact ⟨⟨x, hx, rfl⟩, by simpa using hbad⟩
    rw [hemp] at hmem
    simp at hmem
  unfold map_property_value_strict
  dsimp only
  rw [if_neg (show ¬ ps.type = "" by rw [hty]; decide),
    if_neg (show ¬ ps.type = "rollup" by rw [hty]; decide),
    if_pos (Or.inr (Or.inl hty)), if_neg hopts,
    if_neg (show ¬ ps.type = "select" by rw [hty]; decide),
    if_neg (show ¬ ps.type = "status" by rw [hty]; decide)]
  exact if_pos hfil

/-- Witness for C3 at the concrete schema and input of the claim. -/
theorem multi_select_all_or_nothing_witness :
    map_property_value_strict ⟨"multi_select", ["opt1", "opt2"]⟩
        (.listv [.str "opt1", .str "bogus"])
      = (Option.none, some "invalid_option") :=
  (multi_select_all_or_nothing ⟨"multi_select", ["opt1", "opt2"]⟩ rfl
    (by decide) [.str "opt1", .str "bogus"] (.str "bogus")
    (by simp) (by decide)).1

/-- C7 counterexample: the claim says a structured date object is passed
through verbatim, but the strict mapper stringifies it and rejects it with
`invalid_date` (its str() form starts with a brace, not a digit). -/
theorem date_dict_rejected_counterexample :
    map_property_value_strict ⟨"date", []⟩ (.dictv [("start", .str "2024-01-01")])
      = (Option.none, some "invalid_date") := by
  simp [map_property_value_strict, matchesDateShape_dictv]

/-- C7 amended: the strict mapper accepts a value exactly when its str()
form matches the shape `DDDD-DD-DD` (so the calendar-invalid "2024-13-40"
is accepted) and emits `invalid_date` for everything else — including
structured date objects, which it stringifies and rejects; only the lenient
`_map_property_value` passes structured date objects through verbatim. -/
theorem date_shape_only (ps : PropSchema) (hty : ps.type = "date") :
    (∀ v : JVal, map_property_value_strict ps v =
      if matchesDateShape (pyStr v) then (some (.dateStart (pyStr v)), Option.none)
      else (Option.none, some "invalid_date")) ∧
    (∀ entries, map_property_value_strict ps (.dictv entries)
      = (Option.none, some "invalid_date")) ∧
    map_property_value_strict ps (.str "2024-13-40")
      = (some (.dateStart "2024-13-40"), Option.none) ∧
    (∀ entries opts, map_property_value "date" (.dictv entries) opts
      = some (.dateObj entries)) := by
  have hmain : ∀ v : JVal, map_property_value_strict ps v =
      if matchesDateShape (pyStr v) then (some (.dateStart (pyStr v)), Option.none)
      else (Option.none, some "invalid_date") := by
    intro v
    simp only [map_property_value_strict, hty]
    by_cases hv : matchesDateShape (pyStr v) <;> simp [hv]
  refine ⟨hmain, ?_, ?_, ?_⟩
  · intro entries
    rw [hmain (.dictv entries), if_neg (by simp [matchesDateShape_dictv])]
  · rw [hmain (.str "2024-13-40"), if_pos (by decide)]
    rfl
  · intro entries opts
    cases opts <;> rfl

/-- Witness for C7's amended theorem at a concrete schema. -/
theorem date_shape_only_witness :
    map_property_value_strict ⟨"date", []⟩ (.str "2024-13-40")
      = (some (.dateStart "2024-13-40"), Option.none) :=
  (date_shape_only ⟨"date", []⟩ rfl).2.2.1

/-- C8: for a number-typed property the strict mapper accepts exactly the
inputs that already are Python numbers — `isinstance(value, (int, float))`,
under which Python also counts booleans, since bool is a subclass of int —
and passes them through unchanged; every other input, in particular every
string, gets `invalid_number`: no string is ever parsed into a number. -/
theorem number_requires_numeric (ps : PropSchema) (hty : ps.type = "number") :
    (∀ v : JVal, map_property_value_strict ps v =
      if pyIsIntOrFloat v then (some (.number v), Option.none)
      else (Option.none, some "invalid_number")) ∧
    (∀ s : String, map_property_value_strict ps (.str s)
      = (Option.none, some "invalid_number")) ∧
    (∀ n : Int, map_property_value_strict ps (.intv n)
      = (some (.number (.intv n)), Option.none)) := by
  have hmain : ∀ v : JVal, map_property_value_strict ps v =
      if pyIsIntOrFloat v then (some (.number v), Option.none)
      else (Option.none, some "invalid_number") := by
    intro v
    simp only [map_property_value_strict, hty]
    by_cases hv : pyIsIntOrFloat v <;> simp [hv]
  exact ⟨hmain, fun s => by rw [hmain (.str s)]; rfl,
    fun n => by rw [hmain (.intv n)]; rfl⟩

/-- Witness for C8 at a concrete schema. -/
theorem number_requires_numeric_witness :
    map_property_value_strict ⟨"number", []⟩ (.str "12")
      = (Option.none, some "invalid_number") :=
  (number_requires_numeric ⟨"number", []⟩ rfl).2.1 "12"

/-- C9: the concrete schema `(A: title, B: select[opt1,opt2])` with input
`(A: "hello", B: "bogus", C: "x")` maps `A` to a title value and reports `B`
as `invalid_option` (carrying the allowed options) and `C` as
`unknown_property`; in general any input key absent from the schema is
reported as `unknown_property` and never appears in the mapped payload. -/
theorem unknown_property_reporting :
    map_properties_from_schema
        [("A", ⟨"title", []⟩), ("B", ⟨"select", ["opt1", "opt2"]⟩)]
        [("A", .str "hello"), ("B", .str "bogus"), ("C", .str "x")]
      = ([("A", .titleV "hello")],
          [⟨"B", "invalid_option", some ["opt1", "opt2"]⟩,
            ⟨"C", "unknown_property", Option.none⟩]) ∧
    (∀ sp input name, assocGet sp name = Option.none → name ∈ input.map Prod.fst →
      ((⟨name, "unknown_property", Option.none⟩ : ErrorEntry)
          ∈ (map_properties_from_schema sp input).2 ∧
        name ∉ (map_properties_from_schema sp input).1.map Prod.fst)) := by
  refine ⟨rfl, fun sp input name hs hmem => ⟨mpfs_unknown_mem sp input name hs hmem, ?_⟩⟩
  intro hk
  exact mpfs_payload_key_in_schema sp input name hk hs

/-- Witness for C9's general part at a concrete instance. -/
theorem unknown_property_reporting_witness :
    (⟨"C", "unknown_property", Option.none⟩ : ErrorEntry)
      ∈ (map_properties_from_schema [("A", ⟨"title", []⟩)] [("C", JVal.str "x")]).2 ∧
    "C" ∉ (map_properties_from_schema [("A", ⟨"title", []⟩)]
        [("C", JVal.str "x")]).1.map Prod.fst :=
  unknown_property_reporting.2 [("A", ⟨"title", []⟩)] [("C", JVal.str "x")] "C"
    (by decide) (by decide)

/-- If a key looks up to a value, that binding is in the list. -/
lemma assocGet_mem {Beta : Type} (l : List (String × Beta)) (k : String) (v : Beta)
    (h : assocGet l k = some v) : (k, v) ∈ l := by
  induction l with
  | nil => simp [assocGet] at h
  | cons kv rest ih =>
    obtain ⟨k0, v0⟩ := kv
    simp only [assocGet] at h
    by_cases hk : k0 = k
    · rw [if_pos hk] at h
      cases h
      subst hk
      exact List.mem_cons_self _ _
    · rw [if_neg hk] at h
      exact List.mem_cons_of_mem _ (ih h)

/-- The title-extraction loop finds the first title-typed property with
non-empty text. -/
lemma title_loop_eq_find (props : List (String × PropData)) :
    title_loop props = (props.find? (fun np =>
        np.2.type == "title" && extract_plain_text np.2.title != "")).map
      (fun np => extract_plain_text np.2.title) := by
  induction props with
  | nil => rfl
  | cons np rest ih =>
    obtain ⟨n, p⟩ := np
    simp only [title_loop, List.find?]
    by_cases h1 : p.type = "title"
    · by_cases h2 : extract_plain_text p.title = ""
      · have hb : (p.type == "title" && extract_plain_text p.title != "") = false := by
          simp [h1, h2]
        rw [hb, if_pos h1, if_neg (by simp [h2])]
        exact ih
      · have hb : (p.type == "title" && extract_plain_text p.title != "") = true := by
          simp [h1, h2]
        rw [hb, if_pos h1, if_pos (by simp [h2])]
        rfl
    · have hb : (p.type == "title" && extract_plain_text p.title != "") = false := by
        simp [h1]
      rw [hb, if_neg h1]
      exact ih

/-- C6 counterexample: a page whose only property is a non-empty rich_text
property gets the literal title "Untitled" — the claimed rich_text fallback
does not exist in `extract_title`, so the rich text "hello" is not
surfaced. -/
theorem rich_text_fallback_counterexample :
    extract_title [("Desc", ⟨"rich_text", [], [⟨"hello"⟩]⟩)] = "Untitled" ∧
    extract_plain_text [(⟨"hello"⟩ : RichTextPart)] = "hello" ∧
    extract_title [("Desc", ⟨"rich_text", [], [⟨"hello"⟩]⟩)] ≠ "hello" := by
  refine ⟨rfl, rfl, by decide⟩

/-- C6 amended: title extraction is the two-step chain with no rich_text
fallback: the property literally named "Name" wins when it is title-typed
with non-empty text; otherwise the first title-typed property with
non-empty text; otherwise the literal "Untitled" — in particular any page
without a title-typed property (for example one bearing only rich_text
properties) is titled "Untitled". -/
theorem extract_title_chain (properties : List (String × PropData)) :
    (∀ p, assocGet properties "Name" = some p → p.type = "title" →
      extract_plain_text p.title ≠ "" →
      extract_title properties = extract_plain_text p.title) ∧
    ((match assocGet properties "Name" with
      | some p => p.type ≠ "title" ∨ extract_plain_text p.title = ""
      | Option.none => True) →
      extract_title properties =
        (match properties.find? (fun np =>
            np.2.type == "title" && extract_plain_text np.2.title != "") with
        | some np => extract_plain_text np.2.title
        | Option.none => "Untitled")) ∧
    ((∀ np ∈ properties, np.2.type ≠ "title") →
      extract_title properties = "Untitled") := by
  refine ⟨?_, ?_, ?_⟩
  · intro p hn h1 h2
    unfold extract_title
    dsimp only
    rw [hn]
    dsimp only
    rw [if_pos h1, if_pos h2]
  · intro hcond
    unfold extract_title
    dsimp only
    rw [title_loop_eq_find]
    cases hn : assocGet properties "Name" with
    | none =>
      cases properties.find? (fun np =>
        np.2.type == "title" && extract_plain_text np.2.title != "") <;> rfl
    | some p =>
      rw [hn] at hcond
      dsimp only at hcond ⊢
      have hfrom : (if p.type = "title" then
          (if extract_plain_text p.title ≠ "" then some (extract_plain_text p.title)
            else Option.none)
          else Option.none) = Option.none := by
        rcases hcond with hne | h2
        · rw [if_neg hne]
        · by_cases h1 : p.type = "title"
          · rw [if_pos h1, if_neg (by simp [h2])]
          · rw [if_neg h1]
      rw [hfrom]
      cases properties.find? (fun np =>
        np.2.type == "title" && extract_plain_text np.2.title != "") <;> rfl
  · intro hnone
    unfold extract_title
    dsimp only
    rw [title_loop_eq_find]
    have hfind : properties.find? (fun np =>
        np.2.type == "title" && extract_plain_text np.2.title != "") = Option.none := by
      rw [List.find?_eq_none]
      intro np hnp
      simp [hnone np hnp]
    rw [hfind]
    cases hn : assocGet properties "Name" with
    | none => rfl
    | some p =>
      have hp : p.type ≠ "title" := hnone ("Name", p) (assocGet_mem _ _ _ hn)
      dsimp only
      rw [if_neg hp]
      rfl

/-- Witness for C6's amended theorem at a concrete property map. -/
theorem extract_title_chain_witness :
    extract_title [("Desc", (⟨"rich_text", [], [⟨"hi"⟩]⟩ : PropData))] = "Untitled" :=
  (extract_title_chain [("Desc", ⟨"rich_text", [], [⟨"hi"⟩]⟩)]).2.2 (by decide)

/-- C10 counterexample: the id validator returns accepted input unchanged
rather than canonicalizing it — a valid unhyphenated id passes validation
and comes back still unhyphenated (not in hyphenated lowercase 8-4-4-4-12
form), and an id embedded in a URL is rejected outright instead of being
parsed out. -/
theorem id_not_canonicalized_counterexample :
    validate_page_id "00000000000000000000000000000000"
      = .ok "00000000000000000000000000000000" ∧
    canonicalHyphenatedLowercase "00000000000000000000000000000000" = false ∧
    validate_page_id "https://www.notion.so/00000000000000000000000000000000"
      = .error (400, "page_id must resemble a UUID") := by
  refine ⟨rfl, by decide, rfl⟩

/-- C10 amended: the id validator accepts hyphenated or unhyphenated
UUID-shaped ids (URL-embedded forms are rejected with a 400 error) and
returns the whitespace-stripped input unchanged, performing no case or
hyphenation canonicalization; it is idempotent — validating an accepted
output again returns it untouched, so validating twice equals validating
once and already-canonical input is a no-op. -/
theorem validate_id_idempotent (s t : String) (h : validate_page_id s = .ok t) :
    t = pyStrip s ∧ validate_page_id t = .ok t := by
  unfold validate_page_id at h ⊢
  dsimp only at h ⊢
  by_cases h1 : pyStrip s = ""
  · rw [if_pos h1] at h
    exact absurd h (by simp)
  rw [if_neg h1] at h
  by_cases h2 : ¬ matchesIdShape (pyStrip s)
  · rw [if_pos h2] at h
    exact absurd h (by simp)
  rw [if_neg h2] at h
  by_cases h3 : ¬ uuidParsesWithoutHyphens (pyStrip s)
  · rw [if_pos h3] at h
    exact absurd h (by simp)
  rw [if_neg h3] at h
  have ht : t = pyStrip s := by
    have h' := h
    simp only [Except.ok.injEq] at h'
    exact h'.symm
  subst ht
  refine ⟨rfl, ?_⟩
  rw [pyStrip_idem, if_neg h1, if_neg h2, if_neg h3]

/-- Witness for C10's amended theorem at a concrete canonical id. -/
theorem validate_id_idempotent_witness :
    validate_page_id "00000000-0000-0000-0000-000000000000"
      = .ok "00000000-0000-0000-0000-000000000000" ∧
    (("00000000-0000-0000-0000-000000000000" : String)
        = pyStrip "00000000-0000-0000-0000-000000000000" ∧
      validate_page_id "00000000-0000-0000-0000-000000000000"
        = .ok "00000000-0000-0000-0000-000000000000") :=
  ⟨rfl,
    validate_id_idempotent "00000000-0000-0000-0000-000000000000"
      "00000000-0000-0000-0000-000000000000" rfl⟩

/-- C5 counterexample: the lenient create path (`_create_page_in_database`
via `_build_property_payload`) does not abort on a property-mapping
problem — here the property `A` is rejected (invalid select option), yet
the page-creating POST is still issued. -/
theorem lenient_create_posts_despite_rejection :
    create_page_in_database_lenient "d1"
        ⟨[("T", ⟨"title", []⟩), ("A", ⟨"select", ["opt1"]⟩)]⟩ "hi"
        (some [("A", .str "bogus")])
      = (.posted [("T", .titleV "hi")] [] ["A"],
          [⟨"GET", "https://api.notion.com/v1/databases/d1"⟩,
            ⟨"POST", "https://api.notion.com/v1/pages"⟩]) := by
  rfl

/-- C5 amended: the strict write paths — the `/command` `page.create`
database branch and `NotionWriter.create_page_in_database`, both built on
`_map_properties_from_schema` — abort with a structured rejection whenever
the mapper's errors list is non-empty, issuing only the schema GET and
never the page-creating POST; the lenient `_create_page_in_database` path
instead drops rejected properties and posts anyway (see the
counterexample). -/
theorem strict_writes_abort_before_mutation :
    (∀ (vid : String) (db : Database) (props : Option (List (String × JVal)))
        (blocks : Option (List BlockItem)) (post : String × String),
      (map_properties_from_schema db.properties (props.getD [])).2 ≠ [] →
      command_page_create_db vid db props blocks post
        = (.fail "Invalid properties payload"
            (map_properties_from_schema db.properties (props.getD [])).2,
          [⟨"GET", "https://api.notion.com/v1/databases/" ++ vid⟩])) ∧
    (∀ (vid : String) (db : Database) (props : List (String × JVal))
        (content : Option String) (blocks : Option (List BlockItem)),
      (map_properties_from_schema db.properties props).2 ≠ [] →
      ((writer_create_page_in_database vid db (some props) content blocks).2
          = [⟨"GET", "https://api.notion.com/v1/databases/" ++ vid⟩] ∧
        ∃ status detail errors,
          (writer_create_page_in_database vid db (some props) content blocks).1
            = .raised status detail errors)) := by
  constructor
  · intro vid db props blocks post h
    unfold command_page_create_db
    dsimp only
    rw [if_pos h]
  · intro vid db props content blocks h
    unfold writer_create_page_in_database
    dsimp only
    cases hti : get_database_title_property db with
    | none => exact ⟨rfl, 500, "Database has no title property", [], rfl⟩
    | some tp =>
      cases props with
      | nil => simp [map_properties_from_schema] at h
      | cons p ps =>
        dsimp only
        rw [if_neg (by simp), if_neg h]
        exact ⟨rfl, 400, "Invalid properties payload", _, rfl⟩

/-- Witness for C5's amended theorem at a concrete schema and input. -/
theorem strict_writes_abort_witness :
    ((map_properties_from_schema
        [("A", (⟨"select", ["opt1"]⟩ : PropSchema))] [("A", JVal.str "bogus")]).2 ≠ [] ∧
      command_page_create_db "d1" ⟨[("A", ⟨"select", ["opt1"]⟩)]⟩
          (some [("A", JVal.str "bogus")]) Option.none ("pid", "purl")
        = (.fail "Invalid properties payload"
            [⟨"A", "invalid_option", some ["opt1"]⟩],
          [⟨"GET", "https://api.notion.com/v1/databases/d1"⟩])) ∧
    ((writer_create_page_in_database "d1" ⟨[("A", ⟨"select", ["opt1"]⟩)]⟩
          (some [("A", JVal.str "bogus")]) Option.none Option.none).2
        = [⟨"GET", "https://api.notion.com/v1/databases/d1"⟩]) := by
  refine ⟨⟨by decide, ?_⟩, ?_⟩
  · exact (strict_writes_abort_before_mutation.1 "d1" ⟨[("A", ⟨"select", ["opt1"]⟩)]⟩
      (some [("A", JVal.str "bogus")]) Option.none ("pid", "purl") (by decide))
  · exact (strict_writes_abort_before_mutation.2 "d1" ⟨[("A", ⟨"select", ["opt1"]⟩)]⟩
      [("A", JVal.str "bogus")] Option.none Option.none (by decide)).1

/-! ### Scanner support lemmas -/

lemma popLast_eq {α : Type} : ∀ (l : List α) (x : α) (r : List α),
    popLast l = some (x, r) → l = r ++ [x]
  | [], x, r, h => by simp [popLast] at h
  | [a], x, r, h => by
    simp only [popLast, Option.some.injEq, Prod.mk.injEq] at h
    rw [← h.1, ← h.2]
    rfl
  | a :: b :: t, x, r, h => by
    simp only [popLast] at h
    cases hrec : popLast (b :: t) with
    | none => rw [hrec] at h; simp at h
    | some p =>
      obtain ⟨y, rest⟩ := p
      rw [hrec] at h
      simp only [Option.some.injEq, Prod.mk.injEq] at h
      obtain ⟨h1, h2⟩ := h
      rw [← h2, ← h1]
      have hbt := popLast_eq (b :: t) y rest hrec
      rw [List.cons_append, ← hbt]

lemma popLast_none {α : Type} : ∀ (l : List α), popLast l = Option.none → l = []
  | [], _ => rfl
  | [a], h => by simp [popLast] at h
  | a :: b :: t, h => by
    simp only [popLast] at h
    cases hrec : popLast (b :: t) with
    | none => exact absurd (popLast_none (b :: t) hrec) (by simp)
    | some p =>
      obtain ⟨y, rest⟩ := p
      rw [hrec] at h
      simp at h

lemma assocUpdate_keys {β : Type} : ∀ (l : List (String × β)) (k : String) (v : β),
    (assocUpdate l k v).map Prod.fst =
      if k ∈ l.map Prod.fst then l.map Prod.fst else l.map Prod.fst ++ [k]
  | [], k, v => by simp [assocUpdate]
  | (k0, v0) :: rest, k, v => by
    simp only [assocUpdate]
    by_cases hk : k0 = k
    · rw [if_pos hk]
      subst hk
      simp
    · rw [if_neg hk]
      simp only [List.map_cons]
      rw [assocUpdate_keys rest k v]
      by_cases hmem : k ∈ rest.map Prod.fst
      · rw [if_pos hmem, if_pos (by simp [hmem])]
      · rw [if_neg hmem,
          if_neg (by simp only [List.mem_cons]; push_neg; exact ⟨fun h => hk h.symm, hmem⟩)]
        rfl

lemma assocUpdate_nodup {β : Type} (l : List (String × β)) (k : String) (v : β)
    (h : (l.map Prod.fst).Nodup) : ((assocUpdate l k v).map Prod.fst).Nodup := by
  rw [assocUpdate_keys]
  split
  · exact h
  · next hmem =>
    rw [List.nodup_append]
    refine ⟨h, List.nodup_singleton k, ?_⟩
    intro a ha
    simp only [List.mem_singleton]
    intro hae
    exact hmem (hae ▸ ha)

lemma assocUpdate_mem_keys {β : Type} (l : List (String × β)) (k : String) (v : β)
    (a : String) :
    a ∈ (assocUpdate l k v).map Prod.fst ↔ a ∈ l.map Prod.fst ∨ a = k := by
  rw [assocUpdate_keys]
  split
  · next hmem =>
    constructor
    · exact Or.inl
    · rintro (h | rfl)
      · exact h
      · exact hmem
  · simp

lemma assocSetdefault_keys {β : Type} (l : List (String × β)) (k : String) (v : β) :
    (assocSetdefault l k v).map Prod.fst =
      if k ∈ l.map Prod.fst then l.map Prod.fst else l.map Prod.fst ++ [k] := by
  unfold assocSetdefault
  split <;> simp

lemma assocSetdefault_nodup {β : Type} (l : List (String × β)) (k : String) (v : β)
    (h : (l.map Prod.fst).Nodup) : ((assocSetdefault l k v).map Prod.fst).Nodup := by
  rw [assocSetdefault_keys]
  split
  · exact h
  · next hmem =>
    rw [List.nodup_append]
    refine ⟨h, List.nodup_singleton k, ?_⟩
    intro a ha
    simp only [List.mem_singleton]
    intro hae
    exact hmem (hae ▸ ha)

lemma assocSetdefault_mem_keys {β : Type} (l : List (String × β)) (k : String) (v : β)
    (a : String) :
    a ∈ (assocSetdefault l k v).map Prod.fst ↔ a ∈ l.map Prod.fst ∨ a = k := by
  rw [assocSetdefault_keys]
  split
  · next hmem =>
    constructor
    · exact Or.inl
    · rintro (h | rfl)
      · exact h
      · exact hmem
  · simp

/-- Adding a newly visited id to the seen set removes exactly its term from
the pending-work sum. -/
lemma sum_filter_insert (U : List String) (hU : U.Nodup) (f : String → Nat)
    (seen : List String) (id : String) (hid : id ∈ U) (hns : id ∉ seen) :
    ((U.filter (fun x => decide (x ∉ id :: seen))).map f).sum + f id
      = ((U.filter (fun x => decide (x ∉ seen))).map f).sum := by
  induction U with
  | nil => simp at hid
  | cons a rest ih =>
    have hU2 := List.nodup_cons.mp hU
    rcases List.mem_cons.mp hid with rfl | hmem
    · have hfa1 : (decide (id ∉ id :: seen)) = false := by simp
      have hfa2 : (decide (id ∉ seen)) = true := by simpa using hns
      rw [List.filter_cons, List.filter_cons, hfa1, hfa2]
      rw [if_neg (by simp), if_pos rfl]
      simp only [List.map_cons, List.sum_cons]
      have hsame : rest.filter (fun x => decide (x ∉ id :: seen))
          = rest.filter (fun x => decide (x ∉ seen)) := by
        apply List.filter_congr
        intro x hx
        have hxid : x ≠ id := fun h => hU2.1 (h ▸ hx)
        simp [List.mem_cons, hxid]
      rw [hsame]
      omega
    · have hane : a ≠ id := fun h => hU2.1 (h ▸ hmem)
      have hsame : (decide (a ∉ id :: seen)) = (decide (a ∉ seen)) := by
        simp [List.mem_cons, hane]
      rw [List.filter_cons, List.filter_cons, hsame]
      have hrec := ih hU2.2 hmem
      cases hd : decide (a ∉ seen) with
      | true =>
        rw [if_pos rfl, if_pos rfl]
        simp only [List.map_cons, List.sum_cons]
        omega
      | false =>
        rw [if_neg (by simp), if_neg (by simp)]
        exact hrec

/-- The pending-work sum is unchanged by filtering with an equal seen set,
and never increases when the seen set grows. -/
lemma sum_filter_mono (U : List String) (f : String → Nat)
    (seen seen' : List String) (hsub : ∀ x, x ∈ seen → x ∈ seen') :
    ((U.filter (fun x => decide (x ∉ seen'))).map f).sum
      ≤ ((U.filter (fun x => decide (x ∉ seen))).map f).sum := by
  induction U with
  | nil => simp
  | cons a rest ih =>
    rw [List.filter_cons, List.filter_cons]
    cases h1 : decide (a ∉ seen') with
    | true =>
      have h2 : (decide (a ∉ seen)) = true := by
        simp only [decide_eq_true_eq] at h1 ⊢
        exact fun hmem => h1 (hsub a hmem)
      rw [h2, if_pos rfl, if_pos rfl]
      simp only [List.map_cons, List.sum_cons]
      omega
    | false =>
      cases h2 : decide (a ∉ seen) with
      | true =>
        rw [if_neg (by simp), if_pos rfl]
        simp only [List.map_cons, List.sum_cons]
        omega
      | false =>
        rw [if_neg (by simp), if_neg (by simp)]
        exact ih

lemma pcb_db_seenBlocks (st : ScanState) (b : Block) :
    (pcb_db st b).seenBlocks = st.seenBlocks := by
  unfold pcb_db; dsimp only; split_ifs <;> rfl

lemma pcb_db_seenDbs (st : ScanState) (b : Block) :
    (pcb_db st b).seenDbs = st.seenDbs := by
  unfold pcb_db; dsimp only; split_ifs <;> rfl

lemma pcb_db_fetched (st : ScanState) (b : Block) :
    (pcb_db st b).fetched = st.fetched := by
  unfold pcb_db; dsimp only; split_ifs <;> rfl

lemma pcb_db_pages (st : ScanState) (b : Block) :
    (pcb_db st b).pages = st.pages := by
  unfold pcb_db; dsimp only; split_ifs <;> rfl

lemma pcb_db_blockQueue (st : ScanState) (b : Block) :
    (pcb_db st b).blockQueue = st.blockQueue := by
  unfold pcb_db; dsimp only; split_ifs <;> rfl

lemma pcb_db_dbQueue (st : ScanState) (b : Block) :
    (pcb_db st b).dbQueue = st.dbQueue ∨
      ((pcb_db st b).dbQueue = st.dbQueue ++ [b.id] ∧
        b.type = "child_database" ∧ b.id ≠ "") := by
  unfold pcb_db; dsimp only
  split_ifs with h1 h2 h3 <;>
    first
      | exact Or.inl rfl
      | exact Or.inr ⟨rfl, h1, h2⟩

lemma pcb_db_databases (st : ScanState) (b : Block) :
    (pcb_db st b).databases = st.databases ∨
      (∃ e, (pcb_db st b).databases = assocUpdate st.databases b.id e ∧
        b.type = "child_database" ∧ b.id ≠ "") := by
  unfold pcb_db; dsimp only
  split_ifs with h1 h2 h3 <;>
    first
      | exact Or.inr ⟨_, rfl, h1, h2⟩
      | exact Or.inl rfl

lemma pcb_page_seenBlocks (st : ScanState) (b : Block) :
    (pcb_page st b).seenBlocks = st.seenBlocks := by
  unfold pcb_page; dsimp only; split_ifs <;> rfl

lemma pcb_page_seenDbs (st : ScanState) (b : Block) :
    (pcb_page st b).seenDbs = st.seenDbs := by
  unfold pcb_page; dsimp only; split_ifs <;> rfl

lemma pcb_page_fetched (st : ScanState) (b : Block) :
    (pcb_page st b).fetched = st.fetched := by
  unfold pcb_page; dsimp only; split_ifs <;> rfl

lemma pcb_page_databases (st : ScanState) (b : Block) :
    (pcb_page st b).databases = st.databases := by
  unfold pcb_page; dsimp only; split_ifs <;> rfl

lemma pcb_page_dbQueue (st : ScanState) (b : Block) :
    (pcb_page st b).dbQueue = st.dbQueue := by
  unfold pcb_page; dsimp only; split_ifs <;> rfl

lemma pcb_page_blockQueue (st : ScanState) (b : Block) :
    (pcb_page st b).blockQueue = st.blockQueue ∨
      ((pcb_page st b).blockQueue = st.blockQueue ++ [b.id] ∧
        b.type = "child_page" ∧ b.id ≠ "") := by
  unfold pcb_page; dsimp only
  split_ifs with h1 h2 <;>
    first
      | exact Or.inl rfl
      | exact Or.inr ⟨rfl, h1, h2⟩

lemma pcb_page_pages (st : ScanState) (b : Block) :
    (pcb_page st b).pages = st.pages ∨
      (∃ e, (pcb_page st b).pages = assocSetdefault st.pages b.id e ∧
        b.type = "child_page" ∧ b.id ≠ "") := by
  unfold pcb_page; dsimp only
  split_ifs with h1 h2 <;>
    first
      | exact Or.inr ⟨_, rfl, h1, h2⟩
      | exact Or.inl rfl

lemma pcb_children_same (st : ScanState) (b : Block) :
    (pcb_children st b).seenBlocks = st.seenBlocks ∧
    (pcb_children st b).seenDbs = st.seenDbs ∧
    (pcb_children st b).fetched = st.fetched ∧
    (pcb_children st b).pages = st.pages ∧
    (pcb_children st b).databases = st.databases ∧
    (pcb_children st b).dbQueue = st.dbQueue := by
  unfold pcb_children; split_ifs <;> exact ⟨rfl, rfl, rfl, rfl, rfl, rfl⟩

lemma pcb_children_blockQueue (st : ScanState) (b : Block) :
    (pcb_children st b).blockQueue = st.blockQueue ∨
      ((pcb_children st b).blockQueue = st.blockQueue ++ [b.id] ∧ b.id ≠ "") := by
  unfold pcb_children
  split_ifs with h1 <;>
    first
      | exact Or.inl rfl
      | exact Or.inr ⟨rfl, h1.2⟩

lemma pcb_seenBlocks (st : ScanState) (b : Block) :
    (process_child_block st b).seenBlocks = st.seenBlocks := by
  unfold process_child_block
  rw [(pcb_children_same _ _).1, pcb_page_seenBlocks, pcb_db_seenBlocks]

lemma pcb_seenDbs (st : ScanState) (b : Block) :
    (process_child_block st b).seenDbs = st.seenDbs := by
  unfold process_child_block
  rw [(pcb_children_same _ _).2.1, pcb_page_seenDbs, pcb_db_seenDbs]

lemma pcb_fetched (st : ScanState) (b : Block) :
    (process_child_block st b).fetched = st.fetched := by
  unfold process_child_block
  rw [(pcb_children_same _ _).2.2.1, pcb_page_fetched, pcb_db_fetched]

lemma pcb_blockQueue_mem (st : ScanState) (b : Block) (x : String)
    (hx : x ∈ (process_child_block st b).blockQueue) :
    x ∈ st.blockQueue ∨ (x = b.id ∧ b.id ≠ "") := by
  unfold process_child_block at hx
  have hmid : ∀ y, y ∈ (pcb_page (pcb_db st b) b).blockQueue →
      y ∈ st.blockQueue ∨ (y = b.id ∧ b.id ≠ "") := by
    intro y hy
    rcases pcb_page_blockQueue (pcb_db st b) b with h2 | ⟨h2, _, hne2⟩ <;>
      rw [h2, pcb_db_blockQueue] at hy
    · exact Or.inl hy
    · rcases List.mem_append.mp hy with hy | hy
      · exact Or.inl hy
      · exact Or.inr ⟨List.mem_singleton.mp hy, hne2⟩
  rcases pcb_children_blockQueue (pcb_page (pcb_db st b) b) b with h | ⟨h, hne⟩ <;>
    rw [h] at hx
  · exact hmid x hx
  · rcases List.mem_append.mp hx with hx | hx
    · exact hmid x hx
    · exact Or.inr ⟨List.mem_singleton.mp hx, hne⟩

lemma pcb_dbQueue_mem (st : ScanState) (b : Block) (x : String)
    (hx : x ∈ (process_child_block st b).dbQueue) :
    x ∈ st.dbQueue ∨ (x = b.id ∧ b.id ≠ "") := by
  unfold process_child_block at hx
  rw [(pcb_children_same _ _).2.2.2.2.2, pcb_page_dbQueue] at hx
  rcases pcb_db_dbQueue st b with h | ⟨h, _, hne⟩ <;> rw [h] at hx
  · exact Or.inl hx
  · rcases List.mem_append.mp hx with hx | hx
    · exact Or.inl hx
    · exact Or.inr ⟨List.mem_singleton.mp hx, hne⟩

lemma pcb_queue_len (st : ScanState) (b : Block) :
    (process_child_block st b).blockQueue.length + (process_child_block st b).dbQueue.length
      ≤ st.blockQueue.length + st.dbQueue.length + 3 := by
  unfold process_child_block
  rw [(pcb_children_same _ _).2.2.2.2.2, pcb_page_dbQueue]
  have hbq : (pcb_children (pcb_page (pcb_db st b) b) b).blockQueue.length
      ≤ (pcb_page (pcb_db st b) b).blockQueue.length + 1 := by
    rcases pcb_children_blockQueue (pcb_page (pcb_db st b) b) b with h | ⟨h, _⟩ <;>
      rw [h] <;> simp
  have hbq2 : (pcb_page (pcb_db st b) b).blockQueue.length
      ≤ st.blockQueue.length + 1 := by
    rcases pcb_page_blockQueue (pcb_db st b) b with h | ⟨h, _⟩ <;>
      rw [h, pcb_db_blockQueue] <;> simp
  have hdq : (pcb_db st b).dbQueue.length ≤ st.dbQueue.length + 1 := by
    rcases pcb_db_dbQueue st b with h | ⟨h, _⟩ <;> rw [h] <;> simp
  omega

lemma pcb_pages_mem (st : ScanState) (b : Block) (k : String)
    (hk : k ∈ (process_child_block st b).pages.map Prod.fst) :
    k ∈ st.pages.map Prod.fst ∨ (b.type = "child_page" ∧ k = b.id ∧ b.id ≠ "") := by
  unfold process_child_block at hk
  rw [(pcb_children_same _ _).2.2.2.1] at hk
  rcases pcb_page_pages (pcb_db st b) b with h | ⟨e, h, hty, hne⟩ <;>
    rw [h, pcb_db_pages] at hk
  · exact Or.inl hk
  · rcases (assocSetdefault_mem_keys _ _ _ _).mp hk with hk | rfl
    · exact Or.inl hk
    · exact Or.inr ⟨hty, rfl, hne⟩

lemma pcb_pages_nodup (st : ScanState) (b : Block)
    (h : (st.pages.map Prod.fst).Nodup) :
    ((process_child_block st b).pages.map Prod.fst).Nodup := by
  unfold process_child_block
  rw [(pcb_children_same _ _).2.2.2.1]
  rcases pcb_page_pages (pcb_db st b) b with h2 | ⟨e, h2, _, _⟩ <;>
    rw [h2, pcb_db_pages]
  · exact h
  · exact assocSetdefault_nodup _ _ _ h

lemma pcb_dbs_nodup (st : ScanState) (b : Block)
    (h : (st.databases.map Prod.fst).Nodup) :
    ((process_child_block st b).databases.map Prod.fst).Nodup := by
  unfold process_child_block
  rw [(pcb_children_same _ _).2.2.2.2.1, pcb_page_databases]
  rcases pcb_db_databases st b with h2 | ⟨e, h2, _, _⟩ <;> rw [h2]
  · exact h
  · exact assocUpdate_nodup _ _ _ h

lemma pcb_dbs_mono (st : ScanState) (b : Block) (k : String)
    (hk : k ∈ st.databases.map Prod.fst) :
    k ∈ (process_child_block st b).databases.map Prod.fst := by
  unfold process_child_block
  rw [(pcb_children_same _ _).2.2.2.2.1, pcb_page_databases]
  rcases pcb_db_databases st b with h2 | ⟨e, h2, _, _⟩ <;> rw [h2]
  · exact hk
  · exact (assocUpdate_mem_keys _ _ _ _).mpr (Or.inl hk)

lemma pcb_db_databases_pos (st : ScanState) (b : Block)
    (hty : b.type = "child_database") (hne : b.id ≠ "") :
    ∃ e, (pcb_db st b).databases = assocUpdate st.databases b.id e := by
  unfold pcb_db
  rw [if_pos hty, if_pos hne]
  dsimp only
  split_ifs <;> exact ⟨_, rfl⟩

lemma pcb_dbs_add (st : ScanState) (b : Block) (hty : b.type = "child_database")
    (hne : b.id ≠ "") :
    b.id ∈ (process_child_block st b).databases.map Prod.fst := by
  unfold process_child_block
  rw [(pcb_children_same _ _).2.2.2.2.1, pcb_page_databases]
  obtain ⟨e, h2⟩ := pcb_db_databases_pos st b hty hne
  rw [h2]
  exact (assocUpdate_mem_keys _ _ _ _).mpr (Or.inr rfl)

lemma pr_same (st : ScanState) (r : Row) :
    (process_row st r).seenBlocks = st.seenBlocks ∧
    (process_row st r).seenDbs = st.seenDbs ∧
    (process_row st r).fetched = st.fetched ∧
    (process_row st r).databases = st.databases ∧
    (process_row st r).dbQueue = st.dbQueue := by
  unfold process_row; dsimp only; split_ifs <;> exact ⟨rfl, rfl, rfl, rfl, rfl⟩

lemma pr_blockQueue (st : ScanState) (r : Row) :
    (process_row st r).blockQueue = st.blockQueue ∨
      ((process_row st r).blockQueue = st.blockQueue ++ [r.id] ∧ r.id ≠ "") := by
  unfold process_row; dsimp only
  split_ifs with h1 <;>
    first
      | exact Or.inl rfl
      | exact Or.inr ⟨rfl, h1⟩

lemma pr_pages (st : ScanState) (r : Row) :
    (process_row st r).pages = st.pages ∨
      (∃ e, (process_row st r).pages = assocSetdefault st.pages r.id e ∧ r.id ≠ "") := by
  unfold process_row; dsimp only
  split_ifs with h1 <;>
    first
      | exact Or.inl rfl
      | exact Or.inr ⟨_, rfl, h1⟩

lemma foldl_pcb_seenBlocks (l : List Block) (st : ScanState) :
    (l.foldl process_child_block st).seenBlocks = st.seenBlocks := by
  induction l generalizing st with
  | nil => rfl
  | cons b rest ih => rw [List.foldl_cons, ih, pcb_seenBlocks]

lemma foldl_pcb_seenDbs (l : List Block) (st : ScanState) :
    (l.foldl process_child_block st).seenDbs = st.seenDbs := by
  induction l generalizing st with
  | nil => rfl
  | cons b rest ih => rw [List.foldl_cons, ih, pcb_seenDbs]

lemma foldl_pcb_fetched (l : List Block) (st : ScanState) :
    (l.foldl process_child_block st).fetched = st.fetched := by
  induction l generalizing st with
  | nil => rfl
  | cons b rest ih => rw [List.foldl_cons, ih, pcb_fetched]

lemma foldl_pcb_blockQueue_mem (l : List Block) (st : ScanState) (x : String)
    (hx : x ∈ (l.foldl process_child_block st).blockQueue) :
    x ∈ st.blockQueue ∨ ∃ b ∈ l, x = b.id ∧ b.id ≠ "" := by
  induction l generalizing st with
  | nil => exact Or.inl hx
  | cons b rest ih =>
    rw [List.foldl_cons] at hx
    rcases ih (process_child_block st b) hx with h | ⟨b', hb', h⟩
    · rcases pcb_blockQueue_mem st b x h with h | h
      · exact Or.inl h
      · exact Or.inr ⟨b, List.mem_cons_self _ _, h⟩
    · exact Or.inr ⟨b', List.mem_cons_of_mem _ hb', h⟩

lemma foldl_pcb_dbQueue_mem (l : List Block) (st : ScanState) (x : String)
    (hx : x ∈ (l.foldl process_child_block st).dbQueue) :
    x ∈ st.dbQueue ∨ ∃ b ∈ l, x = b.id ∧ b.id ≠ "" := by
  induction l generalizing st with
  | nil => exact Or.inl hx
  | cons b rest ih =>
    rw [List.foldl_cons] at hx
    rcases ih (process_child_block st b) hx with h | ⟨b', hb', h⟩
    · rcases pcb_dbQueue_mem st b x h with h | h
      · exact Or.inl h
      · exact Or.inr ⟨b, List.mem_cons_self _ _, h⟩
    · exact Or.inr ⟨b', List.mem_cons_of_mem _ hb', h⟩

lemma foldl_pcb_len (l : List Block) (st : ScanState) :
    (l.foldl process_child_block st).blockQueue.length
        + (l.foldl process_child_block st).dbQueue.length
      ≤ st.blockQueue.length + st.dbQueue.length + 3 * l.length := by
  induction l generalizing st with
  | nil => simp
  | cons b rest ih =>
    rw [List.foldl_cons]
    have h1 := ih (process_child_block st b)
    have h2 := pcb_queue_len st b
    simp only [List.length_cons]
    omega

lemma foldl_pcb_pages_mem (l : List Block) (st : ScanState) (k : String)
    (hk : k ∈ (l.foldl process_child_block st).pages.map Prod.fst) :
    k ∈ st.pages.map Prod.fst ∨
      ∃ b ∈ l, b.type = "child_page" ∧ k = b.id ∧ b.id ≠ "" := by
  induction l generalizing st with
  | nil => exact Or.inl hk
  | cons b rest ih =>
    rw [List.foldl_cons] at hk
    rcases ih (process_child_block st b) hk with h | ⟨b', hb', h⟩
    · rcases pcb_pages_mem st b k h with h | ⟨hty, hkb, hne⟩
      · exact Or.inl h
      · exact Or.inr ⟨b, List.mem_cons_self _ _, hty, hkb, hne⟩
    · exact Or.inr ⟨b', List.mem_cons_of_mem _ hb', h⟩

lemma foldl_pcb_pages_nodup (l : List Block) (st : ScanState)
    (h : (st.pages.map Prod.fst).Nodup) :
    ((l.foldl process_child_block st).pages.map Prod.fst).Nodup := by
  induction l generalizing st with
  | nil => exact h
  | cons b rest ih =>
    rw [List.foldl_cons]
    exact ih (process_child_block st b) (pcb_pages_nodup st b h)

lemma foldl_pcb_dbs_nodup (l : List Block) (st : ScanState)
    (h : (st.databases.map Prod.fst).Nodup) :
    ((l.foldl process_child_block st).databases.map Prod.fst).Nodup := by
  induction l generalizing st with
  | nil => exact h
  | cons b rest ih =>
    rw [List.foldl_cons]
    exact ih (process_child_block st b) (pcb_dbs_nodup st b h)

lemma foldl_pcb_dbs_mono (l : List Block) (st : ScanState) (k : String)
    (hk : k ∈ st.databases.map Prod.fst) :
    k ∈ (l.foldl process_child_block st).databases.map Prod.fst := by
  induction l generalizing st with
  | nil => exact hk
  | cons b rest ih =>
    rw [List.foldl_cons]
    exact ih (process_child_block st b) (pcb_dbs_mono st b k hk)

lemma foldl_pcb_dbs_covers (l : List Block) (st : ScanState) (b : Block)
    (hb : b ∈ l) (hty : b.type = "child_database") (hne : b.id ≠ "") :
    b.id ∈ (l.foldl process_child_block st).databases.map Prod.fst := by
  induction l generalizing st with
  | nil => simp at hb
  | cons b0 rest ih =>
    rw [List.foldl_cons]
    rcases List.mem_cons.mp hb with rfl | hb'
    · exact foldl_pcb_dbs_mono rest _ _ (pcb_dbs_add st b hty hne)
    · exact ih (process_child_block st b0) hb'

lemma foldl_pr_same (l : List Row) (st : ScanState) :
    (l.foldl process_row st).seenBlocks = st.seenBlocks ∧
    (l.foldl process_row st).seenDbs = st.seenDbs ∧
    (l.foldl process_row st).fetched = st.fetched ∧
    (l.foldl process_row st).databases = st.databases ∧
    (l.foldl process_row st).dbQueue = st.dbQueue := by
  induction l generalizing st with
  | nil => exact ⟨rfl, rfl, rfl, rfl, rfl⟩
  | cons r rest ih =>
    rw [List.foldl_cons]
    obtain ⟨i1, i2, i3, i4, i5⟩ := ih (process_row st r)
    obtain ⟨p1, p2, p3, p4, p5⟩ := pr_same st r
    exact ⟨i1.trans p1, i2.trans p2, i3.trans p3, i4.trans p4, i5.trans p5⟩

lemma foldl_pr_blockQueue_mem (l : List Row) (st : ScanState) (x : String)
    (hx : x ∈ (l.foldl process_row st).blockQueue) :
    x ∈ st.blockQueue ∨ ∃ r ∈ l, x = r.id ∧ r.id ≠ "" := by
  induction l generalizing st with
  | nil => exact Or.inl hx
  | cons r rest ih =>
    rw [List.foldl_cons] at hx
    rcases ih (process_row st r) hx with h | ⟨r', hr', h⟩
    · rcases pr_blockQueue st r with h2 | ⟨h2, hne⟩ <;> rw [h2] at h
      · exact Or.inl h
      · rcases List.mem_append.mp h with h | h
        · exact Or.inl h
        · exact Or.inr ⟨r, List.mem_cons_self _ _, List.mem_singleton.mp h, hne⟩
    · exact Or.inr ⟨r', List.mem_cons_of_mem _ hr', h⟩

lemma foldl_pr_len (l : List Row) (st : ScanState) :
    (l.foldl process_row st).blockQueue.length + (l.foldl process_row st).dbQueue.length
      ≤ st.blockQueue.length + st.dbQueue.length + l.length := by
  induction l generalizing st with
  | nil => simp
  | cons r rest ih =>
    rw [List.foldl_cons]
    have h1 := ih (process_row st r)
    have h2 : (process_row st r).blockQueue.length ≤ st.blockQueue.length + 1 := by
      rcases pr_blockQueue st r with h | ⟨h, _⟩ <;> rw [h] <;> simp
    have h3 := (pr_same st r).2.2.2.2
    simp only [List.length_cons]
    rw [h3] at h1
    omega

lemma foldl_pr_pages_mem (l : List Row) (st : ScanState) (k : String)
    (hk : k ∈ (l.foldl process_row st).pages.map Prod.fst) :
    k ∈ st.pages.map Prod.fst ∨ ∃ r ∈ l, k = r.id ∧ r.id ≠ "" := by
  induction l generalizing st with
  | nil => exact Or.inl hk
  | cons r rest ih =>
    rw [List.foldl_cons] at hk
    rcases ih (process_row st r) hk with h | ⟨r', hr', h⟩
    · rcases pr_pages st r with h2 | ⟨e, h2, hne⟩ <;> rw [h2] at h
      · exact Or.inl h
      · rcases (assocSetdefault_mem_keys _ _ _ _).mp h with h | rfl
        · exact Or.inl h
        · exact Or.inr ⟨r, List.mem_cons_self _ _, rfl, hne⟩
    · exact Or.inr ⟨r', List.mem_cons_of_mem _ hr', h⟩

lemma foldl_pr_pages_nodup (l : List Row) (st : ScanState)
    (h : (st.pages.map Prod.fst).Nodup) :
    ((l.foldl process_row st).pages.map Prod.fst).Nodup := by
  induction l generalizing st with
  | nil => exact h
  | cons r rest ih =>
    rw [List.foldl_cons]
    apply ih
    rcases pr_pages st r with h2 | ⟨e, h2, _⟩ <;> rw [h2]
    · exact h
    · exact assocSetdefault_nodup _ _ _ h

lemma pageOrigin_mono {ws : Workspace} {sB sD sB' sD' : List String} {p : String}
    (hB : ∀ x ∈ sB, x ∈ sB') (hD : ∀ x ∈ sD, x ∈ sD')
    (h : PageOrigin ws sB sD p) : PageOrigin ws sB' sD' p := by
  rcases h with ⟨id, hid, hrest⟩ | ⟨d, hd, hrest⟩
  · exact Or.inl ⟨id, hB id hid, hrest⟩
  · exact Or.inr ⟨d, hD d hd, hrest⟩

lemma popLast_mem {α : Type} {l r : List α} {x : α} (h : popLast l = some (x, r)) :
    x ∈ l ∧ (∀ y ∈ r, y ∈ l) ∧ l.length = r.length + 1 := by
  have he := popLast_eq l x r h
  refine ⟨?_, ?_, ?_⟩ <;> rw [he]
  · exact List.mem_append.mpr (Or.inr (List.mem_singleton.mpr rfl))
  · exact fun y hy => List.mem_append.mpr (Or.inl hy)
  · simp

/-- One scanner iteration from a state satisfying the invariant either
yields an invariant-preserving state of strictly smaller measure, or
re-raises a database query failure outside 403/404. -/
lemma scanStep_spec (ws : Workspace) (U : List String) (hU : U.Nodup)
    (hCc : ∀ id ∈ U, ∀ b ∈ ws.children id, b.id = "" ∨ b.id ∈ U)
    (hCr : ∀ id ∈ U, ∀ r ∈ rowsOf ws id, r.id = "" ∨ r.id ∈ U)
    (st : ScanState) (hInv : ScanInv ws U st)
    (hne : ¬(st.blockQueue = [] ∧ st.dbQueue = [])) :
    (∃ st', scanStep ws st = .ok st' ∧ ScanInv ws U st' ∧
        scanMeasure ws U st' < scanMeasure ws U st) ∨
    (∃ status, scanStep ws st = .error status ∧
        ∃ id, ws.dbPages id = .error status ∧ ¬(status = 403 ∨ status = 404)) := by
  cases hpop : popLast st.blockQueue with
  | some pr =>
    obtain ⟨bid, rest⟩ := pr
    obtain ⟨hbidmem, hrestmem, hqlen⟩ := popLast_mem hpop
    by_cases hskip : bid = "" ∨ bid ∈ st.seenBlocks
    · left
      refine ⟨{st with blockQueue := rest}, ?_, ?_, ?_⟩
      · unfold scanStep
        rw [hpop]
        dsimp only
        rw [if_pos hskip]
      · exact ⟨fun x hx => hInv.bq_sub x (hrestmem x hx), hInv.dq_sub,
          hInv.seenB_nodup, hInv.fetch_eq, hInv.pages_nodup, hInv.dbs_nodup,
          hInv.db_disc, hInv.pages_origin⟩
      · simp only [scanMeasure]
        omega
    · push_neg at hskip
      obtain ⟨hbne, hbnotseen⟩ := hskip
      have hbidU : bid ∈ U := hInv.bq_sub bid hbidmem
      left
      refine ⟨(ws.children bid).foldl process_child_block
        {st with blockQueue := rest, seenBlocks := bid :: st.seenBlocks,
                 fetched := st.fetched ++ [bid]}, ?_, ?_, ?_⟩
      · unfold scanStep
        rw [hpop]
        dsimp only
        rw [if_neg (by push_neg; exact ⟨hbne, hbnotseen⟩)]
      · refine ⟨?_, ?_, ?_, ?_, ?_, ?_, ?_, ?_⟩
        · intro x hx
          rcases foldl_pcb_blockQueue_mem _ _ _ hx with h | ⟨b, hb, rfl, hne2⟩
          · exact hInv.bq_sub x (hrestmem x h)
          · rcases hCc bid hbidU b hb with h | h
            · exact absurd h hne2
            · exact h
        · intro x hx
          rcases foldl_pcb_dbQueue_mem _ _ _ hx with h | ⟨b, hb, rfl, hne2⟩
          · exact hInv.dq_sub x h
          · rcases hCc bid hbidU b hb with h | h
            · exact absurd h hne2
            · exact h
        · rw [foldl_pcb_seenBlocks]
          exact List.nodup_cons.mpr ⟨hbnotseen, hInv.seenB_nodup⟩
        · rw [foldl_pcb_fetched, foldl_pcb_seenBlocks]
          show st.fetched ++ [bid] = (bid :: st.seenBlocks).reverse
          rw [hInv.fetch_eq, List.reverse_cons]
        · exact foldl_pcb_pages_nodup _ _ hInv.pages_nodup
        · exact foldl_pcb_dbs_nodup _ _ hInv.dbs_nodup
        · intro id hid b hb hbty
          rw [foldl_pcb_seenBlocks] at hid
          rcases List.mem_cons.mp hid with rfl | hid
          · by_cases hbid0 : b.id = ""
            · exact Or.inl hbid0
            · exact Or.inr (foldl_pcb_dbs_covers _ _ b hb hbty hbid0)
          · rcases hInv.db_disc id hid b hb hbty with h | h
            · exact Or.inl h
            · exact Or.inr (foldl_pcb_dbs_mono _ _ _ h)
        · intro pk hpk
          rw [foldl_pcb_seenBlocks, foldl_pcb_seenDbs]
          rcases foldl_pcb_pages_mem _ _ _ hpk with h | ⟨b, hb, hbty, hkeq, hne2⟩
          · refine pageOrigin_mono ?_ ?_ (hInv.pages_origin pk h)
            · exact fun x hx => List.mem_cons_of_mem _ hx
            · exact fun x hx => hx
          · exact Or.inl ⟨bid, List.mem_cons_self _ _, b, hb, hbty, hkeq.symm⟩
      · simp only [scanMeasure]
        have hsum1 := sum_filter_insert U hU (fun id => (ws.children id).length)
          st.seenBlocks bid hbidU hbnotseen
        have hlen := foldl_pcb_len (ws.children bid)
          {st with blockQueue := rest, seenBlocks := bid :: st.seenBlocks,
                   fetched := st.fetched ++ [bid]}
        rw [foldl_pcb_seenBlocks, foldl_pcb_seenDbs]
        dsimp only at hsum1 hlen ⊢
        omega
  | none =>
    have hbq : st.blockQueue = [] := popLast_none _ hpop
    cases hdpop : popLast st.dbQueue with
    | none =>
      exact absurd ⟨hbq, popLast_none _ hdpop⟩ hne
    | some pr =>
      obtain ⟨did, rest⟩ := pr
      obtain ⟨hdidmem, hrestmem, hqlen⟩ := popLast_mem hdpop
      by_cases hskip : did ∈ st.seenDbs
      · left
        refine ⟨{st with dbQueue := rest}, ?_, ?_, ?_⟩
        · unfold scanStep
          rw [hpop, hdpop]
          dsimp only
          rw [if_pos hskip]
        · exact ⟨hInv.bq_sub, fun x hx => hInv.dq_sub x (hrestmem x hx),
            hInv.seenB_nodup, hInv.fetch_eq, hInv.pages_nodup, hInv.dbs_nodup,
            hInv.db_disc, hInv.pages_origin⟩
        · simp only [scanMeasure]
          omega
      · have hdidU : did ∈ U := hInv.dq_sub did hdidmem
        have hsum2 := sum_filter_insert U hU (fun id => rowCount ws id)
          st.seenDbs did hdidU hskip
        cases hdb : ws.dbPages did with
        | error status =>
          by_cases hstat : status = 403 ∨ status = 404
          · left
            refine ⟨{st with dbQueue := rest, seenDbs := did :: st.seenDbs}, ?_, ?_, ?_⟩
            · unfold scanStep
              rw [hpop, hdpop]
              dsimp only
              rw [if_neg hskip, hdb]
              dsimp only
              rw [if_pos hstat]
            · refine ⟨hInv.bq_sub, fun x hx => hInv.dq_sub x (hrestmem x hx),
                hInv.seenB_nodup, hInv.fetch_eq, hInv.pages_nodup, hInv.dbs_nodup,
                hInv.db_disc, ?_⟩
              intro pk hpk
              exact pageOrigin_mono (fun x hx => hx)
                (fun x hx => List.mem_cons_of_mem _ hx) (hInv.pages_origin pk hpk)
            · simp only [scanMeasure]
              have hrc : rowCount ws did = 0 := by
                unfold rowCount rowsOf
                rw [hdb]
                rfl
              dsimp only at hsum2
              omega
          · right
            refine ⟨status, ?_, did, hdb, hstat⟩
            unfold scanStep
            rw [hpop, hdpop]
            dsimp only
            rw [if_neg hskip, hdb]
            dsimp only
            rw [if_neg hstat]
        | ok rows =>
          left
          have hrows : rowsOf ws did = rows := by
            unfold rowsOf
            rw [hdb]
          refine ⟨rows.foldl process_row
            {st with dbQueue := rest, seenDbs := did :: st.seenDbs}, ?_, ?_, ?_⟩
          · unfold scanStep
            rw [hpop, hdpop]
            dsimp only
            rw [if_neg hskip, hdb]
          · refine ⟨?_, ?_, ?_, ?_, ?_, ?_, ?_, ?_⟩
            · intro x hx
              rcases foldl_pr_blockQueue_mem _ _ _ hx with h | ⟨r, hr, rfl, hne2⟩
              · exact hInv.bq_sub x h
              · rcases hCr did hdidU r (hrows ▸ hr) with h | h
                · exact absurd h hne2
                · exact h
            · intro x hx
              rw [(foldl_pr_same _ _).2.2.2.2] at hx
              exact hInv.dq_sub x (hrestmem x hx)
            · rw [(foldl_pr_same _ _).1]
              exact hInv.seenB_nodup
            · rw [(foldl_pr_same _ _).2.2.1, (foldl_pr_same _ _).1]
              exact hInv.fetch_eq
            · exact foldl_pr_pages_nodup _ _ hInv.pages_nodup
            · rw [(foldl_pr_same _ _).2.2.2.1]
              exact hInv.dbs_nodup
            · intro id hid b hb hbty
              rw [(foldl_pr_same _ _).1] at hid
              rw [(foldl_pr_same _ _).2.2.2.1]
              exact hInv.db_disc id hid b hb hbty
            · intro pk hpk
              rw [(foldl_pr_same _ _).1, (foldl_pr_same _ _).2.1]
              rcases foldl_pr_pages_mem _ _ _ hpk with h | ⟨r, hr, hkeq, hne2⟩
              · refine pageOrigin_mono (fun x hx => hx) ?_ (hInv.pages_origin pk h)
                exact fun x hx => List.mem_cons_of_mem _ hx
              · exact Or.inr ⟨did, List.mem_cons_self _ _, rows, hdb, r, hr, hkeq.symm⟩
          · simp only [scanMeasure]
            have hrc : rowCount ws did = rows.length := by
              unfold rowCount
              rw [hrows]
            have hlen := foldl_pr_len rows
              {st with dbQueue := rest, seenDbs := did :: st.seenDbs}
            rw [(foldl_pr_same _ _).1, (foldl_pr_same _ _).2.1]
            dsimp only at hlen hsum2 ⊢
            omega

/-- With fuel above the measure, the scan loop reaches a verdict: a final
invariant-preserving state with both queues drained, or the re-raised
status of a database failure outside 403/404. -/
lemma scanLoop_spec (ws : Workspace) (U : List String) (hU : U.Nodup)
    (hCc : ∀ id ∈ U, ∀ b ∈ ws.children id, b.id = "" ∨ b.id ∈ U)
    (hCr : ∀ id ∈ U, ∀ r ∈ rowsOf ws id, r.id = "" ∨ r.id ∈ U) :
    ∀ (fuel : Nat) (st : ScanState), ScanInv ws U st → scanMeasure ws U st < fuel →
    ∃ r, scanLoop ws fuel st = some r ∧
      (∀ fin, r = .ok fin → ScanInv ws U fin ∧ fin.blockQueue = [] ∧ fin.dbQueue = []) ∧
      (∀ status, r = .error status →
        ∃ id, ws.dbPages id = .error status ∧ ¬(status = 403 ∨ status = 404)) := by
  intro fuel
  induction fuel with
  | zero =>
    intro st _ hm
    omega
  | succ fuel ih =>
    intro st hInv hm
    by_cases hdone : st.blockQueue.isEmpty ∧ st.dbQueue.isEmpty
    · refine ⟨.ok st, ?_, ?_, ?_⟩
      · unfold scanLoop
        rw [if_pos hdone]
      · intro fin hfin
        cases hfin
        exact ⟨hInv, List.isEmpty_iff.mp hdone.1, List.isEmpty_iff.mp hdone.2⟩
      · intro status h
        exact absurd h (by simp)
    · have hne : ¬(st.blockQueue = [] ∧ st.dbQueue = []) := by
        intro h
        exact hdone ⟨by simp [h.1], by simp [h.2]⟩
      rcases scanStep_spec ws U hU hCc hCr st hInv hne with
        ⟨st', hstep, hInv', hm'⟩ | ⟨status, hstep, hwit⟩
      · obtain ⟨r, hr, hok, herr⟩ := ih st' hInv' (by omega)
        refine ⟨r, ?_, hok, herr⟩
        unfold scanLoop
        rw [if_neg hdone, hstep]
        exact hr
      · refine ⟨.error status, ?_, ?_, ?_⟩
        · unfold scanLoop
          rw [if_neg hdone, hstep]
        · intro fin h
          exact absurd h (by simp)
        · intro s h
          cases h
          exact hwit

/-- The invariant holds at the start of a scan. -/
lemma scanInv_init (ws : Workspace) (U : List String) (root : String)
    (hroot : root ∈ U) : ScanInv ws U (initState root) := by
  refine ⟨?_, ?_, ?_, rfl, ?_, ?_, ?_, ?_⟩
  · intro x hx
    have : x = root := List.mem_singleton.mp hx
    exact this ▸ hroot
  · intro x hx
    exact absurd hx (List.not_mem_nil x)
  · exact List.nodup_nil
  · exact List.nodup_nil
  · exact List.nodup_nil
  · intro id hid
    exact absurd hid (List.not_mem_nil id)
  · intro p hp
    exact absurd hp (List.not_mem_nil p)

/-! ### Scanner claim theorems -/

/-- C1: on every finite, possibly cyclic reachability graph (universe `U`
closed under children and rows), the scan from any root terminates — fuel
one above the initial measure already suffices.  When it completes, records
of the final state show every id's children were fetched at most once (the
fetch trace has no duplicates: it is exactly the visited set in visit
order), the pages catalog holds each page id at most once, and both work
queues were fully drained. -/
theorem scan_terminates_and_dedups (ws : Workspace) (U : List String) (root : String)
    (hU : U.Nodup) (hC : ClosedGraph ws U root) :
    ∃ r, scan_workspace ws (scanMeasure ws U (initState root) + 1) root = some r ∧
      ∀ fin, r = .ok fin →
        fin.fetched.Nodup ∧ fin.fetched = fin.seenBlocks.reverse ∧
        (fin.pages.map Prod.fst).Nodup ∧ fin.blockQueue = [] ∧ fin.dbQueue = [] := by
  obtain ⟨hroot, hCc, hCr⟩ := hC
  obtain ⟨r, hr, hok, herr⟩ := scanLoop_spec ws U hU hCc hCr
    (scanMeasure ws U (initState root) + 1) (initState root)
    (scanInv_init ws U root hroot) (by omega)
  refine ⟨r, hr, ?_⟩
  intro fin hfin
  obtain ⟨hInvf, hbq, hdq⟩ := hok fin hfin
  refine ⟨?_, hInvf.fetch_eq, hInvf.pages_nodup, hbq, hdq⟩
  rw [hInvf.fetch_eq]
  exact List.nodup_reverse.mpr hInvf.seenB_nodup

/-- A two-page workspace with a cycle: the root's child is page X, and X's
children hold a back-reference to the root. -/
def cycleWs : Workspace where
  children := fun id =>
    if id = "root" then [⟨"child_page", "X", ⟨"page_id", "root"⟩, "", "Page X", false⟩]
    else if id = "X" then [⟨"child_page", "root", ⟨"page_id", "X"⟩, "", "Back", false⟩]
    else []
  dbPages := fun _ => .ok []

/-- Witness for C1: on the concrete cyclic workspace the scan terminates,
and page X appears exactly once in the pages catalog. -/
theorem scan_terminates_witness :
    (∃ r, scan_workspace cycleWs
        (scanMeasure cycleWs ["root", "X"] (initState "root") + 1) "root" = some r ∧
      ∀ fin, r = .ok fin →
        fin.fetched.Nodup ∧ fin.fetched = fin.seenBlocks.reverse ∧
        (fin.pages.map Prod.fst).Nodup ∧ fin.blockQueue = [] ∧ fin.dbQueue = []) ∧
    (∃ fin, scan_workspace cycleWs 7 "root" = some (.ok fin) ∧
      (fin.pages.map Prod.fst).count "X" = 1) := by
  constructor
  · refine scan_terminates_and_dedups cycleWs ["root", "X"] "root" (by decide)
      ⟨by decide, ?_, ?_⟩
    · intro id hid
      fin_cases hid <;> decide
    · intro id hid
      fin_cases hid <;> decide
  · exact ⟨_, rfl, by decide⟩

/-- C4: when every database query failure carries status 403 or 404, the
scan never aborts: it completes with both queues drained, every
`child_database` block of every visited block is present in the databases
catalog (in particular an inaccessible database discovered via its parent),
and every id in the pages catalog originates from a `child_page` block of a
visited block or from a row of a successfully queried database — so an
erroring database contributes zero rows. -/
theorem scan_fault_isolation (ws : Workspace) (U : List String) (root : String)
    (hU : U.Nodup) (hC : ClosedGraph ws U root)
    (hErr : ∀ id e, ws.dbPages id = .error e → e = 403 ∨ e = 404) :
    ∃ fin, scan_workspace ws (scanMeasure ws U (initState root) + 1) root
        = some (.ok fin) ∧
      fin.blockQueue = [] ∧ fin.dbQueue = [] ∧
      (∀ id ∈ fin.seenBlocks, ∀ b ∈ ws.children id, b.type = "child_database" →
        b.id = "" ∨ b.id ∈ fin.databases.map Prod.fst) ∧
      (∀ p ∈ fin.pages.map Prod.fst, PageOrigin ws fin.seenBlocks fin.seenDbs p) := by
  obtain ⟨hroot, hCc, hCr⟩ := hC
  obtain ⟨r, hr, hok, herr⟩ := scanLoop_spec ws U hU hCc hCr
    (scanMeasure ws U (initState root) + 1) (initState root)
    (scanInv_init ws U root hroot) (by omega)
  cases r with
  | error status =>
    obtain ⟨id, hdb, hnot⟩ := herr status rfl
    exact absurd (hErr id status hdb) hnot
  | ok fin =>
    obtain ⟨hInvf, hbq, hdq⟩ := hok fin rfl
    exact ⟨fin, hr, hbq, hdq, hInvf.db_disc, hInvf.pages_origin⟩

/-- A workspace whose root has an inaccessible database D (its row query
fails with 403), a page P, and an accessible database D2 with one row R. -/
def faultWs : Workspace where
  children := fun id =>
    if id = "root" then
      [⟨"child_database", "D", ⟨"page_id", "root"⟩, "Locked DB", "", false⟩,
        ⟨"child_page", "P", ⟨"page_id", "root"⟩, "", "Page P", false⟩,
        ⟨"child_database", "D2", ⟨"page_id", "root"⟩, "Open DB", "", false⟩]
    else []
  dbPages := fun id =>
    if id = "D" then .error 403
    else if id = "D2" then .ok [⟨"R", ⟨"database_id", "D2"⟩, []⟩]
    else .ok []

/-- Witness for C4: on the concrete workspace the scan completes despite
D's 403; D is still cataloged, D's rows are absent, and P and D2's row R
are processed. -/
theorem scan_fault_isolation_witness :
    (∃ fin, scan_workspace faultWs
        (scanMeasure faultWs ["root", "D", "P", "D2", "R"] (initState "root") + 1)
        "root" = some (.ok fin) ∧
      fin.blockQueue = [] ∧ fin.dbQueue = [] ∧
      (∀ id ∈ fin.seenBlocks, ∀ b ∈ faultWs.children id, b.type = "child_database" →
        b.id = "" ∨ b.id ∈ fin.databases.map Prod.fst) ∧
      (∀ p ∈ fin.pages.map Prod.fst, PageOrigin faultWs fin.seenBlocks fin.seenDbs p)) ∧
    (∃ fin, scan_workspace faultWs 9 "root" = some (.ok fin) ∧
      fin.databases.map Prod.fst = ["D", "D2"] ∧
      fin.pages.map Prod.fst = ["P", "R"]) := by
  constructor
  · refine scan_fault_isolation faultWs ["root", "D", "P", "D2", "R"] "root"
      (by decide) ⟨by decide, ?_, ?_⟩ ?_
    · intro id hid
      fin_cases hid <;> decide
    · intro id hid
      fin_cases hid <;> decide
    · intro id e h
      by_cases h1 : id = "D"
      · rw [show faultWs.dbPages id = .error 403 by simp [faultWs, h1]] at h
        cases h
        exact Or.inl rfl
      · by_cases h2 : id = "D2"
        · rw [show faultWs.dbPages id =
            .ok [⟨"R", ⟨"database_id", "D2"⟩, []⟩] by simp [faultWs, h1, h2]] at h
          exact absurd h (by simp)
        · rw [show faultWs.dbPages id = .ok [] by simp [faultWs, h1, h2]] at h
          exact absurd h (by simp)
  · exact ⟨_, rfl, by decide, by decide⟩

end NotionProxy
